import Mathlib

/-!
Verification development for the sql-parser package (casual-simulation/sql-parser).

The package exposes a SQL AST data model (src/lib/span.ts, src/lib/ident.ts,
src/lib/statement.ts, src/lib/function.ts and the expr/token modules) together
with a WASM visitor engine that walks a statement tree invoking user-supplied
pre/post callbacks (SQLVisitor in src/lib/index.ts, exercised by
src/tests/wasm.spec.js).

The data model below is translated from the TypeScript declarations.  Each
tagged union of the source (a TypeScript object type with one optional field
per variant) is embedded as a Lean inductive with one constructor per variant,
following the closed-union contract stated by the specification: exactly one
variant is active per instance.  The engine that performs the traversal and
the parser live in the Rust WASM crate, which is not part of the TypeScript
sources; those operations are modelled from the specification, and every such
definition carries a doc comment starting with "Modelled from the spec:".
-/

set_option maxHeartbeats 12000000
set_option autoImplicit false

namespace SqlParser

/-- A location in the source code (src/lib/span.ts).  Line and column are
1-based; 0 means the location is unknown. -/
structure Location where
  line : Nat
  column : Nat
deriving DecidableEq

/-- A span in the source code, start inclusive, end exclusive
(src/lib/span.ts). -/
structure Span where
  start : Location
  «end» : Location
deriving DecidableEq

/-- An identifier with its optional quote style and span (src/lib/ident.ts). -/
structure Ident where
  value : String
  quote_style : Option String
  span : Span
deriving DecidableEq

/-- A token with a span attached to it (TokenWithSpan / AttachedToken of the
token module). -/
structure TokenWithSpan where
  token : String
  span : Span
deriving DecidableEq

/-- A dollar-quoted string payload (token module). -/
structure DollarQuotedString where
  value : String
  tag : Option String
deriving DecidableEq

/-- Primitive SQL values such as numbers and strings (Value of the token
module).  The numeric variant keeps the source text plus the is-approximate
flag. -/
inductive Value where
  | Null
  | Number (text : String) (approximate : Bool)
  | Char (c : String)
  | SingleQuotedString (s : String)
  | DoubleQuotedString (s : String)
  | TripleSingleQuotedString (s : String)
  | TripleDoubleQuotedString (s : String)
  | DollarQuotedString (s : DollarQuotedString)
  | SingleQuotedByteStringLiteral (s : String)
  | DoubleQuotedByteStringLiteral (s : String)
  | TripleSingleQuotedByteStringLiteral (s : String)
  | TripleDoubleQuotedByteStringLiteral (s : String)
  | SingleQuotedRawStringLiteral (s : String)
  | DoubleQuotedRawStringLiteral (s : String)
  | TripleSingleQuotedRawStringLiteral (s : String)
  | TripleDoubleQuotedRawStringLiteral (s : String)
  | NationalStringLiteral (s : String)
  | EscapedStringLiteral (s : String)
  | UnicodeStringLiteral (s : String)
  | HexStringLiteral (s : String)
  | Boolean (b : Bool)
  | Placeholder (s : String)
deriving DecidableEq

/-- A primitive value together with its span (ValueWithSpan of the token
module). -/
structure ValueWithSpan where
  value : Value
  span : Span
deriving DecidableEq

/-- Placeholder for fields whose grammar coverage is incomplete; the source
types them as unknown and the specification prescribes an explicit
opaque-payload placeholder for them. -/
inductive UnknownData where
  | mk
deriving DecidableEq

/-- Binary operators (BinaryOperator of the expr module). -/
inductive BinaryOperator where
  | Plus | Minus | Multiply | Divide | Modulo
  | StringConcat | Gt | Lt | GtEq | LtEq | Spaceship
  | Eq | NotEq | And | Or | Xor
  | BitwiseOr | BitwiseAnd | BitwiseXor
deriving DecidableEq

/-- Unary operators (UnaryOperator of the expr module). -/
inductive UnaryOperator where
  | Plus | Minus | Not
  | PGBitwiseNot | PGSquareRoot | PGCubeRoot | PGPostfixFactorial | PGAbs
deriving DecidableEq

/-- UNION / EXCEPT / INTERSECT / MINUS (src/lib/statement.ts). -/
inductive SetOperator where
  | Union | Except | Intersect | Minus
deriving DecidableEq

/-- Quantifier for a set operator (src/lib/statement.ts). -/
inductive SetQuantifier where
  | All | Distinct | ByName | AllByName | DistinctByName | None
deriving DecidableEq

/-- What the select looked like (src/lib/statement.ts). -/
inductive SelectFlavor where
  | Standard | FromFirst | FromFirstNoSelect
deriving DecidableEq

/-- CTE materialization marker (src/lib/statement.ts). -/
inductive CteAsMaterialized where
  | Materialized | NotMaterialized
deriving DecidableEq

/-- Operator used to separate function arguments (src/lib/function.ts). -/
inductive FunctionArgOperator where
  | Equals | RightArrow | Assignment | Colon | Value
deriving DecidableEq

/-- Sqlite ON CONFLICT behaviour of an INSERT (fuller statement module,
src/unnamed/part_003). -/
inductive SqliteOnConflict where
  | Rollback | Abort | Fail | Ignore | Replace
deriving DecidableEq

/-- ALL or DISTINCT inside a function argument list (fuller statement
module, src/unnamed/part_003). -/
inductive DuplicateTreatment where
  | Distinct | All
deriving DecidableEq

/-- Modelled from the spec: NullTreatment is imported from the data-type
module but its declaration is not among the sources; it mirrors the two-arm
sqlparser enum the import references, IGNORE NULLS or RESPECT NULLS. -/
inductive NullTreatment where
  | IgnoreNulls | RespectNulls
deriving DecidableEq

/-- A window frame (src/lib/statement.ts); its payloads are unknown-typed
in the source. -/
structure WindowFrame where
  units : UnknownData
  start_bound : UnknownData
  end_bound : Option UnknownData
deriving DecidableEq

/-- Column definition in a table alias (src/lib/statement.ts); the optional
data_type field lies outside the modelled fragment. -/
structure TableAliasColumnDef where
  name : Ident
deriving DecidableEq

/-- A table alias (src/lib/statement.ts). -/
structure TableAlias where
  name : Ident
  columns : List TableAliasColumnDef
deriving DecidableEq

/-- Options of an ORDER BY expression (src/lib/statement.ts). -/
structure OrderByOptions where
  asc : Option Bool
  nulls_first : Option Bool
deriving DecidableEq

/-- The TABLE command body (src/lib/statement.ts). -/
structure Table where
  table_name : Option String
  schema_name : Option String
deriving DecidableEq

mutual

/-- An SQL expression (Expr of the expr module); the embedding covers the
identifier, predicate, operator, literal, nesting and subquery variants. -/
inductive Expr where
  | Identifier (i : Ident)
  | CompoundIdentifier (parts : List Ident)
  | IsNull (e : Expr)
  | IsNotNull (e : Expr)
  | InList (e : Expr) (list : List Expr) (negated : Bool)
  | Between (e : Expr) (negated : Bool) (low : Expr) (high : Expr)
  | BinaryOp (left : Expr) (op : BinaryOperator) (right : Expr)
  | UnaryOp (op : UnaryOperator) (e : Expr)
  | Like (negated : Bool) (any : Bool) (e : Expr) (pattern : Expr)
      (escape_char : Option Value)
  | Nested (e : Expr)
  | Value (v : ValueWithSpan)
  | Exists (subquery : Query) (negated : Bool)
  | Subquery (q : Query)
  | Tuple (exprs : List Expr)

/-- A single part of an ObjectName (src/lib/ident.ts): a plain identifier or
a dynamically-constructed name. -/
inductive ObjectNamePart where
  | Identifier (i : Ident)
  | Function (f : ObjectNamePartFunction)

/-- An object-name part built from a function call (src/lib/ident.ts). -/
inductive ObjectNamePartFunction where
  | mk (name : Ident) (args : List FunctionArg)

/-- A function argument (src/lib/function.ts). -/
inductive FunctionArg where
  | Named (name : Ident) (arg : FunctionArgExpr) (operator : FunctionArgOperator)
  | ExprNamed (name : Expr) (arg : FunctionArgExpr) (operator : FunctionArgOperator)
  | Unnamed (arg : FunctionArgExpr)

/-- A function argument expression (src/lib/function.ts). -/
inductive FunctionArgExpr where
  | Expr (e : Expr)
  | QualifiedWildcard (name : List ObjectNamePart)
  | Wildcard

/-- Arguments to a table-valued function (src/lib/statement.ts). -/
inductive TableFunctionArgs where
  | mk (args : List FunctionArg) (settings : Option UnknownData)

/-- A SQL query: optional CTE list, body, trailing clauses
(src/lib/statement.ts). -/
inductive Query where
  | mk («with» : Option With) (body : SetExpr) (order_by : Option OrderBy)

/-- A WITH clause (src/lib/statement.ts). -/
inductive With where
  | mk (with_token : TokenWithSpan) (recursive : Bool) (cte_tables : List Cte)

/-- A single CTE (src/lib/statement.ts). -/
inductive Cte where
  | mk («alias» : TableAlias) (query : Query) («from» : Option Ident)
      (materialized : Option CteAsMaterialized)
      (closing_paren_token : TokenWithSpan)

/-- A query-body node: SELECT, nested query, set operation over two bodies,
VALUES, or DML as expression (src/lib/statement.ts). -/
inductive SetExpr where
  | Select (s : Select)
  | Query (q : Query)
  | SetOperation (op : SetOperator) (set_quantifier : SetQuantifier)
      (left : SetExpr) (right : SetExpr)
  | Values (v : Values)
  | Insert (s : Statement)
  | Table (t : Table)

/-- A select statement (src/lib/statement.ts); fields whose payloads lie
outside the modelled fragment (distinct, top, into, lateral views, windows)
are omitted. -/
inductive Select where
  | mk (select_token : TokenWithSpan) (top_before_distinct : Bool)
      (projection : List SelectItem) («from» : List TableWithJoins)
      (selection : Option Expr) (group_by : GroupByExpr)
      (having : Option Expr) (qualify : Option Expr)
      (window_before_qualify : Bool) (flavor : SelectFlavor)

/-- One item of the list following SELECT (src/lib/statement.ts). -/
inductive SelectItem where
  | UnnamedExpr (e : Expr)
  | ExprWithAlias (e : Expr) («alias» : Ident)
  | QualifiedWildcard (kind : SelectItemQualifiedWildcardKind)
      (options : UnknownData)
  | Wildcard (options : UnknownData)

/-- The expression behind a qualified wildcard (src/lib/statement.ts). -/
inductive SelectItemQualifiedWildcardKind where
  | ObjectName (name : List ObjectNamePart)
  | Expr (e : Expr)

/-- A GROUP BY expression (src/lib/statement.ts): either ALL with modifiers,
or an expression list with modifiers — a closed union. -/
inductive GroupByExpr where
  | All (modifiers : List GroupByWithModifier)
  | Expressions (exprs : List Expr) (modifiers : List GroupByWithModifier)

/-- A GROUP BY modifier (src/lib/statement.ts). -/
inductive GroupByWithModifier where
  | Rollup
  | Cube
  | Totals
  | GroupingSets (e : Expr)

/-- A relation together with its joins (src/lib/statement.ts). -/
inductive TableWithJoins where
  | mk (relation : TableFactor) (joins : List Join)

/-- A JOIN clause (src/lib/statement.ts). -/
inductive Join where
  | mk (relation : TableFactor) (global : Bool) (join_operator : JoinOperator)

/-- A join operator (src/lib/statement.ts). -/
inductive JoinOperator where
  | Join (c : JoinConstraint)
  | Inner (c : JoinConstraint)
  | Left (c : JoinConstraint)
  | LeftOuter (c : JoinConstraint)
  | Right (c : JoinConstraint)
  | RightOuter (c : JoinConstraint)
  | FullOuter (c : JoinConstraint)
  | CrossJoin (c : JoinConstraint)
  | CrossApply
  | OuterApply

/-- A join constraint (src/lib/statement.ts). -/
inductive JoinConstraint where
  | On (e : Expr)
  | Using (names : List (List ObjectNamePart))
  | Natural
  | None

/-- The ORDER BY clause (src/lib/statement.ts); the optional interpolate
field lies outside the modelled fragment. -/
inductive OrderBy where
  | mk (kind : OrderByKind)

/-- The kind of an ORDER BY clause (src/lib/statement.ts). -/
inductive OrderByKind where
  | All (options : OrderByOptions)
  | Expressions (exprs : List OrderByExpr)

/-- An ORDER BY expression (src/lib/statement.ts). -/
inductive OrderByExpr where
  | mk (e : Expr) (options : OrderByOptions)

/-- The VALUES body (src/lib/statement.ts). -/
inductive Values where
  | mk (rows : List Row)

/-- A row of values to insert (src/lib/statement.ts). -/
inductive Row where
  | mk (explicit_row : Bool) (rows : List (List Expr))

/-- A table factor (src/lib/statement.ts); the embedding covers the table
reference, derived table, table function, UNNEST and nested join variants. -/
inductive TableFactor where
  | Table (name : List ObjectNamePart) («alias» : Option TableAlias)
      (args : Option TableFunctionArgs) (with_hints : List Expr)
      (version : Option UnknownData) (with_ordinality : Bool)
      (partitions : List Ident) (json_path : Option UnknownData)
      (sample : Option UnknownData) (index_hints : List UnknownData)
  | Derived (lateral : Bool) (subquery : Query) («alias» : Option TableAlias)
  | TableFunction (e : Expr) («alias» : Option TableAlias)
  | UNNEST («alias» : Option TableAlias) (array_exprs : List Expr)
      (with_offset : Bool) (with_offset_alias : Option Ident)
      (with_ordinality : Bool)
  | NestedJoin (table_with_joins : TableWithJoins) («alias» : Option TableAlias)

/-- The referenced table of an INSERT INTO statement (fuller statement
module, src/unnamed/part_003): a table specified by name, or a table
specified as a function. -/
inductive TableObject where
  | TableName (name : List ObjectNamePart)
  | TableFunction (f : SQLFunction)

/-- A function call (SQLFunction of the function module,
src/unnamed/part_003). -/
inductive SQLFunction where
  | mk (name : List ObjectNamePart) ( uses_odbc_syntax : Bool)
      (parameters : FunctionArguments) (args : FunctionArguments)
      (filter : Option Expr) (null_treatment : Option NullTreatment)
      (over : Option WindowType) (within_group : List OrderByExpr)

/-- The arguments passed to a function call (fuller statement module,
src/unnamed/part_003): no parenthesized list, a sole subquery argument, or
a normal argument list. -/
inductive FunctionArguments where
  | None
  | Subquery (q : Query)
  | List (l : FunctionArgumentList)

/-- Everything inside the parentheses of a function call (fuller statement
module, src/unnamed/part_003). -/
inductive FunctionArgumentList where
  | mk (duplicate_treatment : Option DuplicateTreatment)
      (args : List FunctionArg) (clauses : List FunctionArgumentClause)

/-- An additional clause inside a function argument list (fuller statement
module, src/unnamed/part_003). -/
inductive FunctionArgumentClause where
  | IgnoreOrRespectNulls (t : NullTreatment)
  | OrderBy (l : List OrderByExpr)
  | Limit (e : Expr)
  | OnOverflow (u : UnknownData)
  | Having (u : UnknownData)
  | Separator (v : Value)
  | JsonNullClause (u : UnknownData)
  | JsonReturningClause (u : UnknownData)

/-- A window qualifier on a function call (function module,
src/unnamed/part_003): an inline specification or a named window. -/
inductive WindowType where
  | WindowSpec (ws : WindowSpec)
  | NamedWindow (i : Ident)

/-- A window specification (src/lib/statement.ts). -/
inductive WindowSpec where
  | mk (window_name : Option Ident) (partition_by : List Expr)
      (order_by : List OrderByExpr) (window_frame : Option WindowFrame)

/-- A SQL assignment, target = expr (fuller statement module,
src/unnamed/part_003). -/
inductive Assignment where
  | mk (target : AssignmentTarget) (value : Expr)

/-- The left-hand side of an assignment (fuller statement module,
src/unnamed/part_003). -/
inductive AssignmentTarget where
  | ColumnName (name : List ObjectNamePart)
  | Tuple (names : List (List ObjectNamePart))

/-- The ON clause of an INSERT (fuller statement module,
src/unnamed/part_003): ON DUPLICATE KEY UPDATE or ON CONFLICT. -/
inductive OnInsert where
  | DuplicateKeyUpdate (assignments : List Assignment)
  | OnConflict (c : OnConflict)

/-- An ON CONFLICT clause (fuller statement module, src/unnamed/part_003). -/
inductive OnConflict where
  | mk (conflict_target : Option ConflictTarget) (action : OnConflictAction)

/-- The target of an ON CONFLICT clause (fuller statement module,
src/unnamed/part_003). -/
inductive ConflictTarget where
  | Columns (columns : List Ident)
  | OnConstraint (name : List ObjectNamePart)

/-- The action of an ON CONFLICT clause (fuller statement module,
src/unnamed/part_003). -/
inductive OnConflictAction where
  | DoNothing
  | DoUpdate (d : DoUpdate)

/-- A DO UPDATE action (fuller statement module, src/unnamed/part_003). -/
inductive DoUpdate where
  | mk (assignments : List Assignment) (selection : Option Expr)

/-- A SQL INSERT statement (interface Insert of the fuller statement module,
src/unnamed/part_003): the referenced table, column lists, the source query
holding the inserted rows, MySQL SET assignments, Hive partition
expressions, the ON clause and the RETURNING list, plus dialect flags;
unknown-typed fields carry the opaque placeholder. -/
inductive Insert where
  | mk («or» : Option SqliteOnConflict) (ignore : Bool) (into : Bool)
      (table : TableObject) (table_alias : Option Ident)
      (columns : List Ident) (overwrite : Bool) (source : Option Query)
      (assignments : List Assignment) (partitioned : Option (List Expr))
      (after_columns : List Ident) (has_table_keyword : Bool)
      («on» : Option OnInsert) (returning : Option (List SelectItem))
      (replace_into : Bool) (priority : Option UnknownData)
      (insert_alias : Option UnknownData) (settings : Option (List UnknownData))
      (format_clause : Option UnknownData)

/-- A top-level statement.  src/lib/statement.ts currently narrows Statement
to Query; the fuller statement module (src/unnamed/part_003) declares the
tagged union whose structured arms are Query, Insert, Update and Delete.
The embedding covers the Query and Insert arms, the ones the claims
exercise. -/
inductive Statement where
  | Query (q : Query)
  | Insert (i : Insert)

end

/-- A name of a table, view or custom type, possibly multi-part
(src/lib/ident.ts). -/
abbrev ObjectName := List ObjectNamePart

/-! ## The visitor engine

The traversal itself is implemented in the Rust WASM crate, outside the
TypeScript sources; the definitions of this section are therefore modelled
from the spec (section 4.2): a synchronous depth-first walk that, at every
node of a hooked category, fires the pre hook, recurses into the children in
left-to-right source order, and fires the post hook, while always recursing
into children whether or not a callback is registered.  The observable
behaviour of a traversal is the ordered sequence of hook invocations, each
recorded as an event carrying the payload the callback receives. -/

/-- The payload handed to a hook, one variant per hooked node category of
SQLVisitorConfig (src/lib/index.ts). -/
inductive Payload where
  | statement (s : Statement)
  | query (q : Query)
  | relation (r : ObjectName)
  | tableFactor (tf : TableFactor)
  | expr (e : Expr)
  | value (v : Value)

/-- A single hook invocation: a pre or a post hook fired with a payload. -/
inductive Event where
  | pre (p : Payload)
  | post (p : Payload)

/-- The visitor configuration (SQLVisitorConfig in src/lib/index.ts): twelve
independently optional callbacks.  Modelled from the spec: a callback entry
is modelled by whether it is registered, since the observable behaviour of a
traversal is the sequence of hook invocations. -/
structure SQLVisitorConfig where
  pre_visit_query : Bool
  post_visit_query : Bool
  pre_visit_relation : Bool
  post_visit_relation : Bool
  pre_visit_table_factor : Bool
  post_visit_table_factor : Bool
  pre_visit_expr : Bool
  post_visit_expr : Bool
  pre_visit_statement : Bool
  post_visit_statement : Bool
  pre_visit_value : Bool
  post_visit_value : Bool
deriving DecidableEq

/-- The configuration with every callback registered. -/
def fullConfig : SQLVisitorConfig :=
  ⟨true, true, true, true, true, true, true, true, true, true, true, true⟩

/-- The configuration with zero callbacks registered. -/
def emptyConfig : SQLVisitorConfig :=
  ⟨false, false, false, false, false, false, false, false, false, false,
    false, false⟩

/-- Whether the pre hook for the category of a payload is registered. -/
def preEnabled (cfg : SQLVisitorConfig) : Payload → Bool
  | .statement _ => cfg.pre_visit_statement
  | .query _ => cfg.pre_visit_query
  | .relation _ => cfg.pre_visit_relation
  | .tableFactor _ => cfg.pre_visit_table_factor
  | .expr _ => cfg.pre_visit_expr
  | .value _ => cfg.pre_visit_value

/-- Whether the post hook for the category of a payload is registered. -/
def postEnabled (cfg : SQLVisitorConfig) : Payload → Bool
  | .statement _ => cfg.post_visit_statement
  | .query _ => cfg.post_visit_query
  | .relation _ => cfg.post_visit_relation
  | .tableFactor _ => cfg.post_visit_table_factor
  | .expr _ => cfg.post_visit_expr
  | .value _ => cfg.post_visit_value

/-- Whether an event is emitted under a configuration: a pre event needs its
pre hook registered, a post event its post hook. -/
def Event.enabledB (cfg : SQLVisitorConfig) : Event → Bool
  | .pre p => preEnabled cfg p
  | .post p => postEnabled cfg p

/-- The hook-invocation tree of one traversal: each node is a hooked AST node
(its payload) together with the hooked nodes reached inside it, in traversal
order.  The spec describes exactly this shape: entering a node fires its pre
hook, then the children are traversed, then leaving it fires its post hook. -/
inductive VNode where
  | node (payload : Payload) (children : List VNode)

/-- The pre event of a node, when registered. -/
def hookOpen (cfg : SQLVisitorConfig) (p : Payload) : List Event :=
  if preEnabled cfg p then [Event.pre p] else []

/-- The post event of a node, when registered. -/
def hookClose (cfg : SQLVisitorConfig) (p : Payload) : List Event :=
  if postEnabled cfg p then [Event.post p] else []

mutual

/-- The events fired while traversing one hooked node: pre hook, children in
order, post hook. -/
def emit (cfg : SQLVisitorConfig) : VNode → List Event
  | .node p cs => hookOpen cfg p ++ emitList cfg cs ++ hookClose cfg p

/-- The events fired while traversing a forest of hooked nodes in order. -/
def emitList (cfg : SQLVisitorConfig) : List VNode → List Event
  | [] => []
  | v :: vs => emit cfg v ++ emitList cfg vs

end


/-! ## The traversal

Modelled from the spec, section 4.2: for a statement, visit_statement wraps
everything; a Query node fires visit_query around its CTE list (in
declaration order), its body and its ORDER BY clause; a Select walks FROM
(each TableWithJoins: the relation table factor, then its join list in
order), then the projection list, then the filter clauses; every table
factor fires visit_table_factor, and a table factor exposing a bare
ObjectName fires visit_relation inside it; every expression fires visit_expr
and recurses depth-first into its sub-expressions; literal leaves
additionally fire visit_value.  Sibling children are traversed in the
left-to-right order they appear in the SQL source. -/

/-- Hook forest of an optional bare value (LIKE escape characters); no
recursion, so it lives outside the mutual traversal block. -/
def vtreeValueOpt : Option Value → List VNode
  | .none => []
  | .some v => [.node (.value v) []]

mutual

/-- Hook tree of a statement: a statement node wrapping its content. -/
def vtreeStatement : Statement → VNode
  | .Query q => .node (.statement (.Query q)) [vtreeQuery q]
  | .Insert i => .node (.statement (.Insert i)) (vtreeInsert i)

/-- Hook forest inside an INSERT, in the field order of the source
interface: the referenced table (a bare table name fires the relation
hooks, a table function traverses the function call), then the source
query, the SET assignments, the partition expressions, the ON clause and
the RETURNING list. -/
def vtreeInsert : Insert → List VNode
  | .mk _ _ _ table _ _ _ source assignments partitioned _ _ onIns
      returning _ _ _ _ _ =>
      (match table with
        | .TableName name => [vtreeRelation name]
        | .TableFunction f => vtreeSQLFunction f) ++
      (match source with
        | .none => []
        | .some q => [vtreeQuery q]) ++
      vtreeAssignmentList assignments ++
      (match partitioned with
        | .none => []
        | .some l => vtreeExprList l) ++
      vtreeOnInsertOpt onIns ++
      (match returning with
        | .none => []
        | .some l => vtreeSelectItemList l)

/-- Hook forest of a function call: its name parts, parameter and argument
lists, FILTER expression, window specification and WITHIN GROUP ordering. -/
def vtreeSQLFunction : SQLFunction → List VNode
  | .mk name _ parameters args filter _ over within_group =>
      vtreeObjectName name ++ vtreeFunctionArguments parameters ++
        vtreeFunctionArguments args ++ vtreeExprOpt filter ++
        (match over with
          | .none => []
          | .some (.WindowSpec (.mk _ partition_by order_by _)) =>
              vtreeExprList partition_by ++ vtreeOrderByExprList order_by
          | .some (.NamedWindow _) => []) ++
        vtreeOrderByExprList within_group

/-- Hook forest of the arguments of a function call: nothing, a sole
subquery, or a parenthesized argument list with its clauses. -/
def vtreeFunctionArguments : FunctionArguments → List VNode
  | .None => []
  | .Subquery q => [vtreeQuery q]
  | .List (.mk _ args clauses) =>
      vtreeFunctionArgList args ++ vtreeFunctionArgumentClauseList clauses

/-- Hook forest of the clauses of a function argument list, in order:
ordering expressions, the LIMIT expression and the SEPARATOR literal fire
hooks. -/
def vtreeFunctionArgumentClauseList : List FunctionArgumentClause → List VNode
  | [] => []
  | c :: cs =>
      (match c with
        | .IgnoreOrRespectNulls _ => []
        | .OrderBy l => vtreeOrderByExprList l
        | .Limit e => [vtreeExpr e]
        | .OnOverflow _ => []
        | .Having _ => []
        | .Separator v => [.node (.value v) []]
        | .JsonNullClause _ => []
        | .JsonReturningClause _ => []) ++
      vtreeFunctionArgumentClauseList cs

/-- Hook forest of an assignment list, in order: each assignment traverses
its target columns (not table references, so no relation hook) and then its
value expression. -/
def vtreeAssignmentList : List Assignment → List VNode
  | [] => []
  | .mk target value :: as =>
      (match target with
        | .ColumnName name => vtreeObjectName name
        | .Tuple names => vtreeObjectNameList names) ++
      vtreeExpr value :: vtreeAssignmentList as

/-- Hook forest of an optional ON clause of an INSERT: the update
assignments, or the conflict target and action. -/
def vtreeOnInsertOpt : Option OnInsert → List VNode
  | .none => []
  | .some (.DuplicateKeyUpdate assignments) => vtreeAssignmentList assignments
  | .some (.OnConflict (.mk conflict_target action)) =>
      (match conflict_target with
        | .none => []
        | .some (.Columns _) => []
        | .some (.OnConstraint name) => vtreeObjectName name) ++
      (match action with
        | .DoNothing => []
        | .DoUpdate (.mk assignments selection) =>
            vtreeAssignmentList assignments ++ vtreeExprOpt selection)

/-- Hook tree of a query: CTE list in declaration order, then the body,
then the ORDER BY expressions, wrapped in the query hooks. -/
def vtreeQuery : Query → VNode
  | .mk w body order_by =>
      .node (.query (.mk w body order_by))
        ((match w with
          | .none => []
          | .some (.mk _ _ ctes) => vtreeCteList ctes) ++
         vtreeSetExpr body ++
         (match order_by with
          | .none => []
          | .some (.mk (.All _)) => []
          | .some (.mk (.Expressions l)) => vtreeOrderByExprList l))

/-- Hook forest of a CTE list, in declaration order: each CTE its query. -/
def vtreeCteList : List Cte → List VNode
  | [] => []
  | .mk _ q _ _ _ :: cs => vtreeQuery q :: vtreeCteList cs

/-- Hook forest of a list of ORDER BY expressions, in order. -/
def vtreeOrderByExprList : List OrderByExpr → List VNode
  | [] => []
  | .mk e _ :: rest => vtreeExpr e :: vtreeOrderByExprList rest

/-- Hook forest of a query body. -/
def vtreeSetExpr : SetExpr → List VNode
  | .Select s => vtreeSelect s
  | .Query q => [vtreeQuery q]
  | .SetOperation _ _ l r => vtreeSetExpr l ++ vtreeSetExpr r
  | .Values (.mk rows) => vtreeRowList rows
  | .Insert st => [vtreeStatement st]
  | .Table _ => []

/-- Hook forest of a SELECT: FROM first, then the projection list, then the
WHERE, GROUP BY, HAVING and QUALIFY clauses, each in source order. -/
def vtreeSelect : Select → List VNode
  | .mk _ _ projection «from» selection group_by having qualify _ _ =>
      vtreeTWJList «from» ++ vtreeSelectItemList projection ++
        vtreeExprOpt selection ++ vtreeGroupBy group_by ++
        vtreeExprOpt having ++ vtreeExprOpt qualify

/-- Hook forest of a projection list, in order. -/
def vtreeSelectItemList : List SelectItem → List VNode
  | [] => []
  | i :: is =>
      (match i with
        | .UnnamedExpr e => [vtreeExpr e]
        | .ExprWithAlias e _ => [vtreeExpr e]
        | .QualifiedWildcard (.ObjectName name) _ => vtreeObjectName name
        | .QualifiedWildcard (.Expr e) _ => [vtreeExpr e]
        | .Wildcard _ => []) ++
      vtreeSelectItemList is

/-- Hook forest of a FROM list, in source order. -/
def vtreeTWJList : List TableWithJoins → List VNode
  | [] => []
  | t :: ts => vtreeTWJ t ++ vtreeTWJList ts

/-- Hook forest of one FROM entry: its relation table factor, then its
joins in order. -/
def vtreeTWJ : TableWithJoins → List VNode
  | .mk relation joins => vtreeTableFactor relation :: vtreeJoinList joins

/-- Hook forest of a join list, in order. -/
def vtreeJoinList : List Join → List VNode
  | [] => []
  | j :: js => vtreeJoin j ++ vtreeJoinList js

/-- Hook forest of one join: the joined relation table factor, then the
join constraint when its operator carries one. -/
def vtreeJoin : Join → List VNode
  | .mk relation _ op =>
      vtreeTableFactor relation ::
        (match op with
          | .Join c => vtreeJoinConstraint c
          | .Inner c => vtreeJoinConstraint c
          | .Left c => vtreeJoinConstraint c
          | .LeftOuter c => vtreeJoinConstraint c
          | .Right c => vtreeJoinConstraint c
          | .RightOuter c => vtreeJoinConstraint c
          | .FullOuter c => vtreeJoinConstraint c
          | .CrossJoin c => vtreeJoinConstraint c
          | .CrossApply => []
          | .OuterApply => [])

/-- Hook forest of a join constraint: the ON expression, or the USING
column names (which are not table references, so no relation hook). -/
def vtreeJoinConstraint : JoinConstraint → List VNode
  | .On e => [vtreeExpr e]
  | .Using names => vtreeObjectNameList names
  | .Natural => []
  | .None => []

/-- Hook tree of a table factor, wrapped in the table-factor hooks; a table
reference fires the relation hooks on its name inside. -/
def vtreeTableFactor : TableFactor → VNode
  | .Table name «alias» args with_hints version w_ord partitions jp sample ih =>
      .node (.tableFactor (.Table name «alias» args with_hints version w_ord
          partitions jp sample ih))
        (vtreeRelation name ::
          ((match args with
            | .none => []
            | .some (.mk a _) => vtreeFunctionArgList a) ++
           vtreeExprList with_hints))
  | .Derived lateral subquery «alias» =>
      .node (.tableFactor (.Derived lateral subquery «alias»))
        [vtreeQuery subquery]
  | .TableFunction e «alias» =>
      .node (.tableFactor (.TableFunction e «alias»)) [vtreeExpr e]
  | .UNNEST «alias» array_exprs w_off w_off_a w_ord =>
      .node (.tableFactor (.UNNEST «alias» array_exprs w_off w_off_a w_ord))
        (vtreeExprList array_exprs)
  | .NestedJoin twj «alias» =>
      .node (.tableFactor (.NestedJoin twj «alias»)) (vtreeTWJ twj)

/-- Hook tree of an ObjectName used as a table reference: the relation
hooks fire around the traversal of its parts. -/
def vtreeRelation (name : List ObjectNamePart) : VNode :=
  .node (.relation name) (vtreeObjectName name)

/-- Hook forest of the parts of an object name: a plain identifier has
none, a dynamically-constructed name traverses its function arguments. -/
def vtreeObjectName : List ObjectNamePart → List VNode
  | [] => []
  | p :: ps =>
      (match p with
        | .Identifier _ => []
        | .Function (.mk _ args) => vtreeFunctionArgList args) ++
      vtreeObjectName ps

/-- Hook forest of a list of object names (USING column lists). -/
def vtreeObjectNameList : List (List ObjectNamePart) → List VNode
  | [] => []
  | n :: ns => vtreeObjectName n ++ vtreeObjectNameList ns

/-- Hook forest of a function argument list, in order. -/
def vtreeFunctionArgList : List FunctionArg → List VNode
  | [] => []
  | a :: as =>
      (match a with
        | .Named _ arg _ => vtreeFunctionArgExpr arg
        | .ExprNamed name arg _ => vtreeExpr name :: vtreeFunctionArgExpr arg
        | .Unnamed arg => vtreeFunctionArgExpr arg) ++
      vtreeFunctionArgList as

/-- Hook forest of a function argument expression. -/
def vtreeFunctionArgExpr : FunctionArgExpr → List VNode
  | .Expr e => [vtreeExpr e]
  | .QualifiedWildcard name => vtreeObjectName name
  | .Wildcard => []

/-- Hook forest of a GROUP BY clause. -/
def vtreeGroupBy : GroupByExpr → List VNode
  | .All modifiers => vtreeModifierList modifiers
  | .Expressions exprs modifiers =>
      vtreeExprList exprs ++ vtreeModifierList modifiers

/-- Hook forest of GROUP BY modifiers, in order; only GROUPING SETS
carries an expression. -/
def vtreeModifierList : List GroupByWithModifier → List VNode
  | [] => []
  | m :: ms =>
      (match m with
        | .Rollup => []
        | .Cube => []
        | .Totals => []
        | .GroupingSets e => [vtreeExpr e]) ++
      vtreeModifierList ms

/-- Hook forest of a row list, in order. -/
def vtreeRowList : List Row → List VNode
  | [] => []
  | .mk _ rows :: rest => vtreeExprListList rows ++ vtreeRowList rest

/-- Hook forest of a list of expression rows, row-major, each row left to
right. -/
def vtreeExprListList : List (List Expr) → List VNode
  | [] => []
  | r :: rs => vtreeExprList r ++ vtreeExprListList rs

/-- Hook tree of an expression: the expr hooks wrap the depth-first
traversal of its sub-expressions; a literal leaf fires the value hooks
inside. -/
def vtreeExpr : Expr → VNode
  | .Identifier i => .node (.expr (.Identifier i)) []
  | .CompoundIdentifier parts => .node (.expr (.CompoundIdentifier parts)) []
  | .IsNull e => .node (.expr (.IsNull e)) [vtreeExpr e]
  | .IsNotNull e => .node (.expr (.IsNotNull e)) [vtreeExpr e]
  | .InList e list negated =>
      .node (.expr (.InList e list negated)) (vtreeExpr e :: vtreeExprList list)
  | .Between e negated low high =>
      .node (.expr (.Between e negated low high))
        [vtreeExpr e, vtreeExpr low, vtreeExpr high]
  | .BinaryOp l op r =>
      .node (.expr (.BinaryOp l op r)) [vtreeExpr l, vtreeExpr r]
  | .UnaryOp op e => .node (.expr (.UnaryOp op e)) [vtreeExpr e]
  | .Like negated any e pattern escape_char =>
      .node (.expr (.Like negated any e pattern escape_char))
        (vtreeExpr e :: vtreeExpr pattern :: vtreeValueOpt escape_char)
  | .Nested e => .node (.expr (.Nested e)) [vtreeExpr e]
  | .Value v => .node (.expr (.Value v)) [.node (.value v.value) []]
  | .Exists subquery negated =>
      .node (.expr (.Exists subquery negated)) [vtreeQuery subquery]
  | .Subquery q => .node (.expr (.Subquery q)) [vtreeQuery q]
  | .Tuple exprs => .node (.expr (.Tuple exprs)) (vtreeExprList exprs)

/-- Hook forest of an expression list, in order. -/
def vtreeExprList : List Expr → List VNode
  | [] => []
  | e :: es => vtreeExpr e :: vtreeExprList es

/-- Hook forest of an optional expression. -/
def vtreeExprOpt : Option Expr → List VNode
  | .none => []
  | .some e => [vtreeExpr e]

end

/-- Modelled from the spec: visiting a statement fires the registered hooks
in traversal order; the result is the ordered sequence of hook invocations
(SQLVisitor.visit in src/lib/index.ts). -/
def visit (cfg : SQLVisitorConfig) (s : Statement) : List Event :=
  emit cfg (vtreeStatement s)



/-! ## Generic facts about emitted event streams -/

/-- Whether a payload belongs to the expression category. -/
def Payload.isExpr : Payload → Bool
  | .expr _ => true
  | _ => false

/-- Whether a payload belongs to the relation category. -/
def Payload.isRelation : Payload → Bool
  | .relation _ => true
  | _ => false

/-- Whether a payload belongs to the table-factor category. -/
def Payload.isTableFactor : Payload → Bool
  | .tableFactor _ => true
  | _ => false

/-- Whether a payload belongs to the value category. -/
def Payload.isValue : Payload → Bool
  | .value _ => true
  | _ => false

/-- Lift a payload predicate to pre events. -/
def preOf (q : Payload → Bool) : Event → Bool
  | .pre p => q p
  | .post _ => false

/-- Lift a payload predicate to post events. -/
def postOf (q : Payload → Bool) : Event → Bool
  | .pre _ => false
  | .post p => q p

mutual

/-- Number of nodes of a hook tree whose payload satisfies a predicate. -/
def VNode.countPay (q : Payload → Bool) : VNode → Nat
  | .node p cs => (if q p then 1 else 0) + VNode.countPayList q cs

/-- Number of nodes of a hook forest whose payload satisfies a predicate. -/
def VNode.countPayList (q : Payload → Bool) : List VNode → Nat
  | [] => 0
  | v :: vs => VNode.countPay q v + VNode.countPayList q vs

end

theorem countPayList_append (q : Payload → Bool) (a b : List VNode) :
    VNode.countPayList q (a ++ b) =
      VNode.countPayList q a + VNode.countPayList q b := by
  induction a with
  | nil => simp [VNode.countPayList]
  | cons v vs ih => simp [VNode.countPayList, ih]; omega

theorem preEnabled_full (p : Payload) : preEnabled fullConfig p = true := by
  cases p <;> rfl

theorem postEnabled_full (p : Payload) : postEnabled fullConfig p = true := by
  cases p <;> rfl

theorem hookOpen_full (p : Payload) : hookOpen fullConfig p = [Event.pre p] := by
  simp [hookOpen, preEnabled_full]

theorem hookClose_full (p : Payload) :
    hookClose fullConfig p = [Event.post p] := by
  simp [hookClose, postEnabled_full]

mutual

/-- Under the full configuration, the pre events of a category in the stream
of a node are exactly the tree nodes of that category. -/
theorem emit_countP_pre (q : Payload → Bool) (v : VNode) :
    (emit fullConfig v).countP (preOf q) = VNode.countPay q v := by
  cases v with
  | node p cs =>
      simp [emit, hookOpen_full, hookClose_full, VNode.countPay,
        List.countP_append, List.countP_cons, emit_countP_pre_list q cs,
        preOf, postOf]
      omega

/-- Forest version of emit_countP_pre. -/
theorem emit_countP_pre_list (q : Payload → Bool) (vs : List VNode) :
    (emitList fullConfig vs).countP (preOf q) = VNode.countPayList q vs := by
  cases vs with
  | nil => simp [emitList, VNode.countPayList]
  | cons v vs =>
      simp [emitList, VNode.countPayList, List.countP_append,
        emit_countP_pre q v, emit_countP_pre_list q vs]

end

mutual

/-- Under the full configuration, the post events of a category in the stream
of a node are exactly the tree nodes of that category. -/
theorem emit_countP_post (q : Payload → Bool) (v : VNode) :
    (emit fullConfig v).countP (postOf q) = VNode.countPay q v := by
  cases v with
  | node p cs =>
      simp [emit, hookOpen_full, hookClose_full, VNode.countPay,
        List.countP_append, List.countP_cons, emit_countP_post_list q cs,
        preOf, postOf]
      omega

/-- Forest version of emit_countP_post. -/
theorem emit_countP_post_list (q : Payload → Bool) (vs : List VNode) :
    (emitList fullConfig vs).countP (postOf q) = VNode.countPayList q vs := by
  cases vs with
  | nil => simp [emitList, VNode.countPayList]
  | cons v vs =>
      simp [emitList, VNode.countPayList, List.countP_append,
        emit_countP_post q v, emit_countP_post_list q vs]

end

mutual

/-- Skipping hooks filters the full event stream: the walk under any
configuration yields exactly the events of the full walk whose hooks are
registered, so absent entries are skipped while traversal still proceeds
into children. -/
theorem emit_filter (cfg : SQLVisitorConfig) (v : VNode) :
    emit cfg v = (emit fullConfig v).filter (Event.enabledB cfg) := by
  cases v with
  | node p cs =>
      simp [emit, hookOpen, hookClose, preEnabled_full, postEnabled_full,
        List.filter_append, List.filter_cons, Event.enabledB,
        emit_filter_list cfg cs]
      split <;> simp

/-- Forest version of emit_filter. -/
theorem emit_filter_list (cfg : SQLVisitorConfig) (vs : List VNode) :
    emitList cfg vs = (emitList fullConfig vs).filter (Event.enabledB cfg) := by
  cases vs with
  | nil => simp [emitList]
  | cons v vs =>
      simp [emitList, List.filter_append, emit_filter cfg v,
        emit_filter_list cfg vs]

end

/-- Well-nested event streams: the empty stream is well nested, and a pre
event followed by a well-nested inner stream, the matching post event and a
well-nested remainder is well nested.  This is the stack-discipline shape:
every post fires after all events of its node's subtree and before any event
outside it. -/
inductive Nested : List Event → Prop where
  | nil : Nested []
  | node (p : Payload) (inner rest : List Event) :
      Nested inner → Nested rest →
      Nested (Event.pre p :: (inner ++ Event.post p :: rest))

theorem Nested.append {a b : List Event} (ha : Nested a) (hb : Nested b) :
    Nested (a ++ b) := by
  induction ha with
  | nil => simpa using hb
  | node p inner rest hi hr ih1 ih2 =>
      have : Event.pre p :: (inner ++ Event.post p :: rest) ++ b =
          Event.pre p :: (inner ++ Event.post p :: (rest ++ b)) := by
        simp
      rw [this]
      exact Nested.node p inner (rest ++ b) hi ih2

/-- A configuration is paired when, for each node category, the pre and the
post hook are either both registered or both absent. -/
def SQLVisitorConfig.paired (cfg : SQLVisitorConfig) : Prop :=
  cfg.pre_visit_query = cfg.post_visit_query ∧
  cfg.pre_visit_relation = cfg.post_visit_relation ∧
  cfg.pre_visit_table_factor = cfg.post_visit_table_factor ∧
  cfg.pre_visit_expr = cfg.post_visit_expr ∧
  cfg.pre_visit_statement = cfg.post_visit_statement ∧
  cfg.pre_visit_value = cfg.post_visit_value

theorem paired_enabled {cfg : SQLVisitorConfig} (h : cfg.paired)
    (p : Payload) : preEnabled cfg p = postEnabled cfg p := by
  obtain ⟨h1, h2, h3, h4, h5, h6⟩ := h
  cases p <;> simp [preEnabled, postEnabled, h1, h2, h3, h4, h5, h6]

mutual

/-- Under a paired configuration the emitted stream is well nested. -/
theorem emit_nested {cfg : SQLVisitorConfig} (h : cfg.paired) (v : VNode) :
    Nested (emit cfg v) := by
  cases v with
  | node p cs =>
      have hinner : Nested (emitList cfg cs) := emit_nested_list h cs
      by_cases hb : preEnabled cfg p = true
      · have hb' : postEnabled cfg p = true := by
          rw [← paired_enabled h p]; exact hb
        have : emit cfg (.node p cs) =
            Event.pre p :: (emitList cfg cs ++ Event.post p :: []) := by
          simp [emit, hookOpen, hookClose, hb, hb']
        rw [this]
        exact Nested.node p _ _ hinner Nested.nil
      · have hb2 : preEnabled cfg p = false := by
          simpa using hb
        have hb' : postEnabled cfg p = false := by
          rw [← paired_enabled h p]; exact hb2
        have : emit cfg (.node p cs) = emitList cfg cs := by
          simp [emit, hookOpen, hookClose, hb2, hb']
        rw [this]
        exact hinner

/-- Forest version of emit_nested. -/
theorem emit_nested_list {cfg : SQLVisitorConfig} (h : cfg.paired)
    (vs : List VNode) : Nested (emitList cfg vs) := by
  cases vs with
  | nil => simpa [emitList] using Nested.nil
  | cons v vs =>
      have h1 : Nested (emit cfg v) := emit_nested h v
      have h2 : Nested (emitList cfg vs) := emit_nested_list h vs
      simpa [emitList] using Nested.append h1 h2

end


/-! ## Counting expression nodes

The number of Expr nodes contained in a statement, defined structurally on
the data model, independently of the traversal. -/

mutual

/-- Number of Expr nodes in a statement. -/
def exprCountStatement : Statement → Nat
  | .Query q => exprCountQuery q
  | .Insert i => exprCountInsert i

/-- Number of Expr nodes in an INSERT statement. -/
def exprCountInsert : Insert → Nat
  | .mk _ _ _ table _ _ _ source assignments partitioned _ _ onIns
      returning _ _ _ _ _ =>
      (match table with
        | .TableName name => exprCountObjectName name
        | .TableFunction f => exprCountSQLFunction f) +
      (match source with
        | .none => 0
        | .some q => exprCountQuery q) +
      exprCountAssignmentList assignments +
      (match partitioned with
        | .none => 0
        | .some l => exprCountExprList l) +
      exprCountOnInsertOpt onIns +
      (match returning with
        | .none => 0
        | .some l => exprCountSelectItemList l)

/-- Number of Expr nodes in a function call. -/
def exprCountSQLFunction : SQLFunction → Nat
  | .mk name _ parameters args filter _ over within_group =>
      exprCountObjectName name + exprCountFunctionArguments parameters +
        exprCountFunctionArguments args + exprCountExprOpt filter +
        (match over with
          | .none => 0
          | .some (.WindowSpec (.mk _ partition_by order_by _)) =>
              exprCountExprList partition_by +
                exprCountOrderByExprList order_by
          | .some (.NamedWindow _) => 0) +
        exprCountOrderByExprList within_group

/-- Number of Expr nodes in the arguments of a function call. -/
def exprCountFunctionArguments : FunctionArguments → Nat
  | .None => 0
  | .Subquery q => exprCountQuery q
  | .List (.mk _ args clauses) =>
      exprCountFunctionArgList args +
        exprCountFunctionArgumentClauseList clauses

/-- Number of Expr nodes in the clauses of a function argument list. -/
def exprCountFunctionArgumentClauseList : List FunctionArgumentClause → Nat
  | [] => 0
  | c :: cs =>
      (match c with
        | .IgnoreOrRespectNulls _ => 0
        | .OrderBy l => exprCountOrderByExprList l
        | .Limit e => exprCountExpr e
        | .OnOverflow _ => 0
        | .Having _ => 0
        | .Separator _ => 0
        | .JsonNullClause _ => 0
        | .JsonReturningClause _ => 0) +
      exprCountFunctionArgumentClauseList cs

/-- Number of Expr nodes in an assignment list. -/
def exprCountAssignmentList : List Assignment → Nat
  | [] => 0
  | .mk target value :: as =>
      (match target with
        | .ColumnName name => exprCountObjectName name
        | .Tuple names => exprCountObjectNameList names) +
      exprCountExpr value + exprCountAssignmentList as

/-- Number of Expr nodes in an optional ON clause of an INSERT. -/
def exprCountOnInsertOpt : Option OnInsert → Nat
  | .none => 0
  | .some (.DuplicateKeyUpdate assignments) =>
      exprCountAssignmentList assignments
  | .some (.OnConflict (.mk conflict_target action)) =>
      (match conflict_target with
        | .none => 0
        | .some (.Columns _) => 0
        | .some (.OnConstraint name) => exprCountObjectName name) +
      (match action with
        | .DoNothing => 0
        | .DoUpdate (.mk assignments selection) =>
            exprCountAssignmentList assignments + exprCountExprOpt selection)

/-- Number of Expr nodes in a query. -/
def exprCountQuery : Query → Nat
  | .mk w body order_by =>
      (match w with
        | .none => 0
        | .some (.mk _ _ ctes) => exprCountCteList ctes) +
      exprCountSetExpr body +
      (match order_by with
        | .none => 0
        | .some (.mk (.All _)) => 0
        | .some (.mk (.Expressions l)) => exprCountOrderByExprList l)

/-- Number of Expr nodes in a CTE list. -/
def exprCountCteList : List Cte → Nat
  | [] => 0
  | .mk _ q _ _ _ :: cs => exprCountQuery q + exprCountCteList cs

/-- Number of Expr nodes in a list of ORDER BY expressions. -/
def exprCountOrderByExprList : List OrderByExpr → Nat
  | [] => 0
  | .mk e _ :: rest => exprCountExpr e + exprCountOrderByExprList rest

/-- Number of Expr nodes in a query body. -/
def exprCountSetExpr : SetExpr → Nat
  | .Select s => exprCountSelect s
  | .Query q => exprCountQuery q
  | .SetOperation _ _ l r => exprCountSetExpr l + exprCountSetExpr r
  | .Values (.mk rows) => exprCountRowList rows
  | .Insert st => exprCountStatement st
  | .Table _ => 0

/-- Number of Expr nodes in a SELECT. -/
def exprCountSelect : Select → Nat
  | .mk _ _ projection «from» selection group_by having qualify _ _ =>
      exprCountTWJList «from» + exprCountSelectItemList projection +
        exprCountExprOpt selection + exprCountGroupBy group_by +
        exprCountExprOpt having + exprCountExprOpt qualify

/-- Number of Expr nodes in a projection list. -/
def exprCountSelectItemList : List SelectItem → Nat
  | [] => 0
  | i :: is =>
      (match i with
        | .UnnamedExpr e => exprCountExpr e
        | .ExprWithAlias e _ => exprCountExpr e
        | .QualifiedWildcard (.ObjectName name) _ => exprCountObjectName name
        | .QualifiedWildcard (.Expr e) _ => exprCountExpr e
        | .Wildcard _ => 0) +
      exprCountSelectItemList is

/-- Number of Expr nodes in a FROM list. -/
def exprCountTWJList : List TableWithJoins → Nat
  | [] => 0
  | t :: ts => exprCountTWJ t + exprCountTWJList ts

/-- Number of Expr nodes in one FROM entry. -/
def exprCountTWJ : TableWithJoins → Nat
  | .mk relation joins =>
      exprCountTableFactor relation + exprCountJoinList joins

/-- Number of Expr nodes in a join list. -/
def exprCountJoinList : List Join → Nat
  | [] => 0
  | j :: js => exprCountJoin j + exprCountJoinList js

/-- Number of Expr nodes in one join. -/
def exprCountJoin : Join → Nat
  | .mk relation _ op =>
      exprCountTableFactor relation +
        (match op with
          | .Join c => exprCountJoinConstraint c
          | .Inner c => exprCountJoinConstraint c
          | .Left c => exprCountJoinConstraint c
          | .LeftOuter c => exprCountJoinConstraint c
          | .Right c => exprCountJoinConstraint c
          | .RightOuter c => exprCountJoinConstraint c
          | .FullOuter c => exprCountJoinConstraint c
          | .CrossJoin c => exprCountJoinConstraint c
          | .CrossApply => 0
          | .OuterApply => 0)

/-- Number of Expr nodes in a join constraint. -/
def exprCountJoinConstraint : JoinConstraint → Nat
  | .On e => exprCountExpr e
  | .Using names => exprCountObjectNameList names
  | .Natural => 0
  | .None => 0

/-- Number of Expr nodes in a table factor. -/
def exprCountTableFactor : TableFactor → Nat
  | .Table name _ args with_hints _ _ _ _ _ _ =>
      exprCountObjectName name +
        (match args with
          | .none => 0
          | .some (.mk a _) => exprCountFunctionArgList a) +
        exprCountExprList with_hints
  | .Derived _ subquery _ => exprCountQuery subquery
  | .TableFunction e _ => exprCountExpr e
  | .UNNEST _ array_exprs _ _ _ => exprCountExprList array_exprs
  | .NestedJoin twj _ => exprCountTWJ twj

/-- Number of Expr nodes in the parts of an object name. -/
def exprCountObjectName : List ObjectNamePart → Nat
  | [] => 0
  | p :: ps =>
      (match p with
        | .Identifier _ => 0
        | .Function (.mk _ args) => exprCountFunctionArgList args) +
      exprCountObjectName ps

/-- Number of Expr nodes in a list of object names. -/
def exprCountObjectNameList : List (List ObjectNamePart) → Nat
  | [] => 0
  | n :: ns => exprCountObjectName n + exprCountObjectNameList ns

/-- Number of Expr nodes in a function argument list. -/
def exprCountFunctionArgList : List FunctionArg → Nat
  | [] => 0
  | a :: as =>
      (match a with
        | .Named _ arg _ => exprCountFunctionArgExpr arg
        | .ExprNamed name arg _ =>
            exprCountExpr name + exprCountFunctionArgExpr arg
        | .Unnamed arg => exprCountFunctionArgExpr arg) +
      exprCountFunctionArgList as

/-- Number of Expr nodes in a function argument expression. -/
def exprCountFunctionArgExpr : FunctionArgExpr → Nat
  | .Expr e => exprCountExpr e
  | .QualifiedWildcard name => exprCountObjectName name
  | .Wildcard => 0

/-- Number of Expr nodes in a GROUP BY clause. -/
def exprCountGroupBy : GroupByExpr → Nat
  | .All modifiers => exprCountModifierList modifiers
  | .Expressions exprs modifiers =>
      exprCountExprList exprs + exprCountModifierList modifiers

/-- Number of Expr nodes in GROUP BY modifiers. -/
def exprCountModifierList : List GroupByWithModifier → Nat
  | [] => 0
  | m :: ms =>
      (match m with
        | .Rollup => 0
        | .Cube => 0
        | .Totals => 0
        | .GroupingSets e => exprCountExpr e) +
      exprCountModifierList ms

/-- Number of Expr nodes in a row list. -/
def exprCountRowList : List Row → Nat
  | [] => 0
  | .mk _ rows :: rest => exprCountExprListList rows + exprCountRowList rest

/-- Number of Expr nodes in a list of expression rows. -/
def exprCountExprListList : List (List Expr) → Nat
  | [] => 0
  | r :: rs => exprCountExprList r + exprCountExprListList rs

/-- Number of Expr nodes in an expression: itself plus its
sub-expressions. -/
def exprCountExpr : Expr → Nat
  | .Identifier _ => 1
  | .CompoundIdentifier _ => 1
  | .IsNull e => 1 + exprCountExpr e
  | .IsNotNull e => 1 + exprCountExpr e
  | .InList e list _ => 1 + exprCountExpr e + exprCountExprList list
  | .Between e _ low high =>
      1 + exprCountExpr e + exprCountExpr low + exprCountExpr high
  | .BinaryOp l _ r => 1 + exprCountExpr l + exprCountExpr r
  | .UnaryOp _ e => 1 + exprCountExpr e
  | .Like _ _ e pattern _ => 1 + exprCountExpr e + exprCountExpr pattern
  | .Nested e => 1 + exprCountExpr e
  | .Value _ => 1
  | .Exists subquery _ => 1 + exprCountQuery subquery
  | .Subquery q => 1 + exprCountQuery q
  | .Tuple exprs => 1 + exprCountExprList exprs

/-- Number of Expr nodes in an expression list. -/
def exprCountExprList : List Expr → Nat
  | [] => 0
  | e :: es => exprCountExpr e + exprCountExprList es

/-- Number of Expr nodes in an optional expression. -/
def exprCountExprOpt : Option Expr → Nat
  | .none => 0
  | .some e => exprCountExpr e

end

/-! ## The traversal reaches each expression node exactly once -/

/-- An optional escape value contributes no expression node. -/
theorem countPay_vtreeValueOpt (o : Option Value) :
    VNode.countPayList Payload.isExpr (vtreeValueOpt o) = 0 := by
  cases o with
  | none => simp [vtreeValueOpt, VNode.countPayList]
  | some v =>
      simp [vtreeValueOpt, VNode.countPay, VNode.countPayList, Payload.isExpr]

mutual

/-- The hook tree of a statement holds one expr node per Expr node of the
statement. -/
theorem countPay_vtreeStatement (s : Statement) :
    VNode.countPay Payload.isExpr (vtreeStatement s) = exprCountStatement s := by
  cases s with
  | Query q =>
      simp [vtreeStatement, exprCountStatement, VNode.countPay,
        VNode.countPayList, Payload.isExpr, countPay_vtreeQuery q]
  | Insert i =>
      simp [vtreeStatement, exprCountStatement, VNode.countPay,
        VNode.countPayList, Payload.isExpr, countPay_vtreeInsert i]

/-- Forest count for an INSERT statement. -/
theorem countPay_vtreeInsert (i : Insert) :
    VNode.countPayList Payload.isExpr (vtreeInsert i) = exprCountInsert i := by
  cases i with
  | mk o ig it table ta cols ov source assignments partitioned ac htk onIns
      returning ri pr ia st fc =>
      have hA := countPay_vtreeAssignmentList assignments
      have hO := countPay_vtreeOnInsertOpt onIns
      cases table with
      | TableName name =>
          have hT := countPay_vtreeRelation name
          cases source with
          | none =>
              cases partitioned with
              | none =>
                  cases returning with
                  | none =>
                      simp [vtreeInsert, exprCountInsert, countPayList_append,
                        VNode.countPayList, hT, hA, hO] <;> omega
                  | some l2 =>
                      simp [vtreeInsert, exprCountInsert, countPayList_append,
                        VNode.countPayList, hT, hA, hO,
                        countPay_vtreeSelectItemList l2] <;> omega
              | some l1 =>
                  cases returning with
                  | none =>
                      simp [vtreeInsert, exprCountInsert, countPayList_append,
                        VNode.countPayList, hT, hA, hO,
                        countPay_vtreeExprList l1] <;> omega
                  | some l2 =>
                      simp [vtreeInsert, exprCountInsert, countPayList_append,
                        VNode.countPayList, hT, hA, hO,
                        countPay_vtreeExprList l1,
                        countPay_vtreeSelectItemList l2] <;> omega
          | some q =>
              have hQ := countPay_vtreeQuery q
              cases partitioned with
              | none =>
                  cases returning with
                  | none =>
                      simp [vtreeInsert, exprCountInsert, countPayList_append,
                        VNode.countPayList, hT, hQ, hA, hO] <;> omega
                  | some l2 =>
                      simp [vtreeInsert, exprCountInsert, countPayList_append,
                        VNode.countPayList, hT, hQ, hA, hO,
                        countPay_vtreeSelectItemList l2] <;> omega
              | some l1 =>
                  cases returning with
                  | none =>
                      simp [vtreeInsert, exprCountInsert, countPayList_append,
                        VNode.countPayList, hT, hQ, hA, hO,
                        countPay_vtreeExprList l1] <;> omega
                  | some l2 =>
                      simp [vtreeInsert, exprCountInsert, countPayList_append,
                        VNode.countPayList, hT, hQ, hA, hO,
                        countPay_vtreeExprList l1,
                        countPay_vtreeSelectItemList l2] <;> omega
      | TableFunction f =>
          have hT := countPay_vtreeSQLFunction f
          cases source with
          | none =>
              cases partitioned with
              | none =>
                  cases returning with
                  | none =>
                      simp [vtreeInsert, exprCountInsert, countPayList_append,
                        VNode.countPayList, hT, hA, hO] <;> omega
                  | some l2 =>
                      simp [vtreeInsert, exprCountInsert, countPayList_append,
                        VNode.countPayList, hT, hA, hO,
                        countPay_vtreeSelectItemList l2] <;> omega
              | some l1 =>
                  cases returning with
                  | none =>
                      simp [vtreeInsert, exprCountInsert, countPayList_append,
                        VNode.countPayList, hT, hA, hO,
                        countPay_vtreeExprList l1] <;> omega
                  | some l2 =>
                      simp [vtreeInsert, exprCountInsert, countPayList_append,
                        VNode.countPayList, hT, hA, hO,
                        countPay_vtreeExprList l1,
                        countPay_vtreeSelectItemList l2] <;> omega
          | some q =>
              have hQ := countPay_vtreeQuery q
              cases partitioned with
              | none =>
                  cases returning with
                  | none =>
                      simp [vtreeInsert, exprCountInsert, countPayList_append,
                        VNode.countPayList, hT, hQ, hA, hO] <;> omega
                  | some l2 =>
                      simp [vtreeInsert, exprCountInsert, countPayList_append,
                        VNode.countPayList, hT, hQ, hA, hO,
                        countPay_vtreeSelectItemList l2] <;> omega
              | some l1 =>
                  cases returning with
                  | none =>
                      simp [vtreeInsert, exprCountInsert, countPayList_append,
                        VNode.countPayList, hT, hQ, hA, hO,
                        countPay_vtreeExprList l1] <;> omega
                  | some l2 =>
                      simp [vtreeInsert, exprCountInsert, countPayList_append,
                        VNode.countPayList, hT, hQ, hA, hO,
                        countPay_vtreeExprList l1,
                        countPay_vtreeSelectItemList l2] <;> omega

/-- Forest count for a function call. -/
theorem countPay_vtreeSQLFunction (f : SQLFunction) :
    VNode.countPayList Payload.isExpr (vtreeSQLFunction f) =
      exprCountSQLFunction f := by
  cases f with
  | mk name u parameters args filter nt over within_group =>
      have hN := countPay_vtreeObjectName name
      have hP := countPay_vtreeFunctionArguments parameters
      have hAr := countPay_vtreeFunctionArguments args
      have hF := countPay_vtreeExprOpt filter
      have hW := countPay_vtreeOrderByExprList within_group
      cases over with
      | none =>
          simp [vtreeSQLFunction, exprCountSQLFunction, countPayList_append,
            VNode.countPayList, hN, hP, hAr, hF, hW] <;> omega
      | some w =>
          cases w with
          | WindowSpec ws =>
              cases ws with
              | mk wn partition_by order_by wf =>
                  simp [vtreeSQLFunction, exprCountSQLFunction,
                    countPayList_append, VNode.countPayList, hN, hP, hAr, hF,
                    hW, countPay_vtreeExprList partition_by,
                    countPay_vtreeOrderByExprList order_by] <;> omega
          | NamedWindow i =>
              simp [vtreeSQLFunction, exprCountSQLFunction, countPayList_append,
                VNode.countPayList, hN, hP, hAr, hF, hW] <;> omega

/-- Forest count for the arguments of a function call. -/
theorem countPay_vtreeFunctionArguments (a : FunctionArguments) :
    VNode.countPayList Payload.isExpr (vtreeFunctionArguments a) =
      exprCountFunctionArguments a := by
  cases a with
  | None =>
      simp [vtreeFunctionArguments, exprCountFunctionArguments,
        VNode.countPayList]
  | Subquery q =>
      simp [vtreeFunctionArguments, exprCountFunctionArguments,
        VNode.countPayList, countPay_vtreeQuery q]
  | List l =>
      cases l with
      | mk dt args clauses =>
          simp [vtreeFunctionArguments, exprCountFunctionArguments,
            countPayList_append, countPay_vtreeFunctionArgList args,
            countPay_vtreeFunctionArgumentClauseList clauses]

/-- Forest count for the clauses of a function argument list. -/
theorem countPay_vtreeFunctionArgumentClauseList
    (l : List FunctionArgumentClause) :
    VNode.countPayList Payload.isExpr (vtreeFunctionArgumentClauseList l) =
      exprCountFunctionArgumentClauseList l := by
  cases l with
  | nil =>
      simp [vtreeFunctionArgumentClauseList,
        exprCountFunctionArgumentClauseList, VNode.countPayList]
  | cons c cs =>
      have hrest := countPay_vtreeFunctionArgumentClauseList cs
      cases c with
      | IgnoreOrRespectNulls t =>
          simp [vtreeFunctionArgumentClauseList,
            exprCountFunctionArgumentClauseList, countPayList_append,
            VNode.countPayList, hrest]
      | OrderBy l0 =>
          simp [vtreeFunctionArgumentClauseList,
            exprCountFunctionArgumentClauseList, countPayList_append,
            VNode.countPayList, hrest, countPay_vtreeOrderByExprList l0]
      | Limit e =>
          simp [vtreeFunctionArgumentClauseList,
            exprCountFunctionArgumentClauseList, countPayList_append,
            VNode.countPayList, hrest, countPay_vtreeExpr e]
      | OnOverflow u =>
          simp [vtreeFunctionArgumentClauseList,
            exprCountFunctionArgumentClauseList, countPayList_append,
            VNode.countPayList, hrest]
      | Having u =>
          simp [vtreeFunctionArgumentClauseList,
            exprCountFunctionArgumentClauseList, countPayList_append,
            VNode.countPayList, hrest]
      | Separator v =>
          simp [vtreeFunctionArgumentClauseList,
            exprCountFunctionArgumentClauseList, countPayList_append,
            VNode.countPay, VNode.countPayList, Payload.isExpr, hrest]
      | JsonNullClause u =>
          simp [vtreeFunctionArgumentClauseList,
            exprCountFunctionArgumentClauseList, countPayList_append,
            VNode.countPayList, hrest]
      | JsonReturningClause u =>
          simp [vtreeFunctionArgumentClauseList,
            exprCountFunctionArgumentClauseList, countPayList_append,
            VNode.countPayList, hrest]

/-- Forest count for an assignment list. -/
theorem countPay_vtreeAssignmentList (l : List Assignment) :
    VNode.countPayList Payload.isExpr (vtreeAssignmentList l) =
      exprCountAssignmentList l := by
  cases l with
  | nil =>
      simp [vtreeAssignmentList, exprCountAssignmentList, VNode.countPayList]
  | cons a as =>
      cases a with
      | mk target value =>
          have hrest := countPay_vtreeAssignmentList as
          have hval := countPay_vtreeExpr value
          cases target with
          | ColumnName name =>
              simp [vtreeAssignmentList, exprCountAssignmentList,
                countPayList_append, VNode.countPayList, hrest, hval,
                countPay_vtreeObjectName name] <;> omega
          | Tuple names =>
              simp [vtreeAssignmentList, exprCountAssignmentList,
                countPayList_append, VNode.countPayList, hrest, hval,
                countPay_vtreeObjectNameList names] <;> omega

/-- Forest count for an optional ON clause of an INSERT. -/
theorem countPay_vtreeOnInsertOpt (o : Option OnInsert) :
    VNode.countPayList Payload.isExpr (vtreeOnInsertOpt o) =
      exprCountOnInsertOpt o := by
  cases o with
  | none => simp [vtreeOnInsertOpt, exprCountOnInsertOpt, VNode.countPayList]
  | some oi =>
      cases oi with
      | DuplicateKeyUpdate assignments =>
          simp [vtreeOnInsertOpt, exprCountOnInsertOpt,
            countPay_vtreeAssignmentList assignments]
      | OnConflict c =>
          cases c with
          | mk conflict_target action =>
              cases conflict_target with
              | none =>
                  cases action with
                  | DoNothing =>
                      simp [vtreeOnInsertOpt, exprCountOnInsertOpt,
                        countPayList_append, VNode.countPayList]
                  | DoUpdate d =>
                      cases d with
                      | mk assignments selection =>
                          simp [vtreeOnInsertOpt, exprCountOnInsertOpt,
                            countPayList_append, VNode.countPayList,
                            countPay_vtreeAssignmentList assignments,
                            countPay_vtreeExprOpt selection]
              | some ct =>
                  cases ct with
                  | Columns cols =>
                      cases action with
                      | DoNothing =>
                          simp [vtreeOnInsertOpt, exprCountOnInsertOpt,
                            countPayList_append, VNode.countPayList]
                      | DoUpdate d =>
                          cases d with
                          | mk assignments selection =>
                              simp [vtreeOnInsertOpt, exprCountOnInsertOpt,
                                countPayList_append, VNode.countPayList,
                                countPay_vtreeAssignmentList assignments,
                                countPay_vtreeExprOpt selection]
                  | OnConstraint name =>
                      cases action with
                      | DoNothing =>
                          simp [vtreeOnInsertOpt, exprCountOnInsertOpt,
                            countPayList_append, VNode.countPayList,
                            countPay_vtreeObjectName name]
                      | DoUpdate d =>
                          cases d with
                          | mk assignments selection =>
                              simp [vtreeOnInsertOpt, exprCountOnInsertOpt,
                                countPayList_append, VNode.countPayList,
                                countPay_vtreeObjectName name,
                                countPay_vtreeAssignmentList assignments,
                                countPay_vtreeExprOpt selection] <;> omega

/-- Tree count for a query. -/
theorem countPay_vtreeQuery (q : Query) :
    VNode.countPay Payload.isExpr (vtreeQuery q) = exprCountQuery q := by
  cases q with
  | mk w body order_by =>
      have hbody := countPay_vtreeSetExpr body
      cases w with
      | none =>
          cases order_by with
          | none =>
              simp [vtreeQuery, exprCountQuery, VNode.countPay,
                Payload.isExpr, countPayList_append, VNode.countPayList, hbody]
          | some ob =>
              cases ob with
              | mk kind =>
                  cases kind with
                  | All opts =>
                      simp [vtreeQuery, exprCountQuery, VNode.countPay,
                        Payload.isExpr, countPayList_append,
                        VNode.countPayList, hbody]
                  | Expressions l =>
                      simp [vtreeQuery, exprCountQuery, VNode.countPay,
                        Payload.isExpr, countPayList_append,
                        VNode.countPayList, hbody,
                        countPay_vtreeOrderByExprList l]
      | some w0 =>
          cases w0 with
          | mk t r ctes =>
              have hctes := countPay_vtreeCteList ctes
              cases order_by with
              | none =>
                  simp [vtreeQuery, exprCountQuery, VNode.countPay,
                    Payload.isExpr, countPayList_append, VNode.countPayList,
                    hbody, hctes] <;> omega
              | some ob =>
                  cases ob with
                  | mk kind =>
                      cases kind with
                      | All opts =>
                          simp [vtreeQuery, exprCountQuery, VNode.countPay,
                            Payload.isExpr, countPayList_append,
                            VNode.countPayList, hbody, hctes] <;> omega
                      | Expressions l =>
                          simp [vtreeQuery, exprCountQuery, VNode.countPay,
                            Payload.isExpr, countPayList_append,
                            VNode.countPayList, hbody, hctes,
                            countPay_vtreeOrderByExprList l] <;> omega

/-- Forest count for a CTE list. -/
theorem countPay_vtreeCteList (cs : List Cte) :
    VNode.countPayList Payload.isExpr (vtreeCteList cs) =
      exprCountCteList cs := by
  cases cs with
  | nil => simp [vtreeCteList, exprCountCteList, VNode.countPayList]
  | cons c rest =>
      cases c with
      | mk a q f m t =>
          simp [vtreeCteList, exprCountCteList, VNode.countPayList,
            countPay_vtreeQuery q, countPay_vtreeCteList rest]

/-- Forest count for a list of ORDER BY expressions. -/
theorem countPay_vtreeOrderByExprList (l : List OrderByExpr) :
    VNode.countPayList Payload.isExpr (vtreeOrderByExprList l) =
      exprCountOrderByExprList l := by
  cases l with
  | nil =>
      simp [vtreeOrderByExprList, exprCountOrderByExprList, VNode.countPayList]
  | cons o rest =>
      cases o with
      | mk e opts =>
          simp [vtreeOrderByExprList, exprCountOrderByExprList,
            VNode.countPayList, countPay_vtreeExpr e,
            countPay_vtreeOrderByExprList rest]

/-- Forest count for a query body. -/
theorem countPay_vtreeSetExpr (b : SetExpr) :
    VNode.countPayList Payload.isExpr (vtreeSetExpr b) =
      exprCountSetExpr b := by
  cases b with
  | Select s => simp [vtreeSetExpr, exprCountSetExpr, countPay_vtreeSelect s]
  | Query q =>
      simp [vtreeSetExpr, exprCountSetExpr, VNode.countPayList,
        countPay_vtreeQuery q]
  | SetOperation op sq l r =>
      simp [vtreeSetExpr, exprCountSetExpr, countPayList_append,
        countPay_vtreeSetExpr l, countPay_vtreeSetExpr r]
  | Values v =>
      cases v with
      | mk rows =>
          simp [vtreeSetExpr, exprCountSetExpr, countPay_vtreeRowList rows]
  | Insert st =>
      simp [vtreeSetExpr, exprCountSetExpr, VNode.countPayList,
        countPay_vtreeStatement st]
  | Table t => simp [vtreeSetExpr, exprCountSetExpr, VNode.countPayList]

/-- Forest count for a SELECT. -/
theorem countPay_vtreeSelect (s : Select) :
    VNode.countPayList Payload.isExpr (vtreeSelect s) = exprCountSelect s := by
  cases s with
  | mk t tbd projection «from» selection group_by having qualify wbq flavor =>
      simp [vtreeSelect, exprCountSelect, countPayList_append,
        countPay_vtreeTWJList «from», countPay_vtreeSelectItemList projection,
        countPay_vtreeExprOpt selection, countPay_vtreeGroupBy group_by,
        countPay_vtreeExprOpt having, countPay_vtreeExprOpt qualify] <;> omega

/-- Forest count for a projection list. -/
theorem countPay_vtreeSelectItemList (l : List SelectItem) :
    VNode.countPayList Payload.isExpr (vtreeSelectItemList l) =
      exprCountSelectItemList l := by
  cases l with
  | nil =>
      simp [vtreeSelectItemList, exprCountSelectItemList, VNode.countPayList]
  | cons i is =>
      have hrest := countPay_vtreeSelectItemList is
      cases i with
      | UnnamedExpr e =>
          simp [vtreeSelectItemList, exprCountSelectItemList,
            countPayList_append, VNode.countPayList, hrest,
            countPay_vtreeExpr e]
      | ExprWithAlias e a =>
          simp [vtreeSelectItemList, exprCountSelectItemList,
            countPayList_append, VNode.countPayList, hrest,
            countPay_vtreeExpr e]
      | QualifiedWildcard kind opts =>
          cases kind with
          | ObjectName name =>
              simp [vtreeSelectItemList, exprCountSelectItemList,
                countPayList_append, VNode.countPayList, hrest,
                countPay_vtreeObjectName name]
          | Expr e =>
              simp [vtreeSelectItemList, exprCountSelectItemList,
                countPayList_append, VNode.countPayList, hrest,
                countPay_vtreeExpr e]
      | Wildcard opts =>
          simp [vtreeSelectItemList, exprCountSelectItemList,
            countPayList_append, VNode.countPayList, hrest]

/-- Forest count for a FROM list. -/
theorem countPay_vtreeTWJList (l : List TableWithJoins) :
    VNode.countPayList Payload.isExpr (vtreeTWJList l) =
      exprCountTWJList l := by
  cases l with
  | nil => simp [vtreeTWJList, exprCountTWJList, VNode.countPayList]
  | cons t ts =>
      simp [vtreeTWJList, exprCountTWJList, countPayList_append,
        countPay_vtreeTWJ t, countPay_vtreeTWJList ts]

/-- Forest count for one FROM entry. -/
theorem countPay_vtreeTWJ (t : TableWithJoins) :
    VNode.countPayList Payload.isExpr (vtreeTWJ t) = exprCountTWJ t := by
  cases t with
  | mk relation joins =>
      simp [vtreeTWJ, exprCountTWJ, VNode.countPayList,
        countPay_vtreeTableFactor relation, countPay_vtreeJoinList joins]

/-- Forest count for a join list. -/
theorem countPay_vtreeJoinList (l : List Join) :
    VNode.countPayList Payload.isExpr (vtreeJoinList l) =
      exprCountJoinList l := by
  cases l with
  | nil => simp [vtreeJoinList, exprCountJoinList, VNode.countPayList]
  | cons j js =>
      simp [vtreeJoinList, exprCountJoinList, countPayList_append,
        countPay_vtreeJoin j, countPay_vtreeJoinList js]

/-- Forest count for one join. -/
theorem countPay_vtreeJoin (j : Join) :
    VNode.countPayList Payload.isExpr (vtreeJoin j) = exprCountJoin j := by
  cases j with
  | mk relation g op =>
      have hrel := countPay_vtreeTableFactor relation
      cases op with
      | Join c =>
          simp [vtreeJoin, exprCountJoin, VNode.countPayList, hrel,
            countPay_vtreeJoinConstraint c]
      | Inner c =>
          simp [vtreeJoin, exprCountJoin, VNode.countPayList, hrel,
            countPay_vtreeJoinConstraint c]
      | Left c =>
          simp [vtreeJoin, exprCountJoin, VNode.countPayList, hrel,
            countPay_vtreeJoinConstraint c]
      | LeftOuter c =>
          simp [vtreeJoin, exprCountJoin, VNode.countPayList, hrel,
            countPay_vtreeJoinConstraint c]
      | Right c =>
          simp [vtreeJoin, exprCountJoin, VNode.countPayList, hrel,
            countPay_vtreeJoinConstraint c]
      | RightOuter c =>
          simp [vtreeJoin, exprCountJoin, VNode.countPayList, hrel,
            countPay_vtreeJoinConstraint c]
      | FullOuter c =>
          simp [vtreeJoin, exprCountJoin, VNode.countPayList, hrel,
            countPay_vtreeJoinConstraint c]
      | CrossJoin c =>
          simp [vtreeJoin, exprCountJoin, VNode.countPayList, hrel,
            countPay_vtreeJoinConstraint c]
      | CrossApply =>
          simp [vtreeJoin, exprCountJoin, VNode.countPayList, hrel]
      | OuterApply =>
          simp [vtreeJoin, exprCountJoin, VNode.countPayList, hrel]

/-- Forest count for a join constraint. -/
theorem countPay_vtreeJoinConstraint (c : JoinConstraint) :
    VNode.countPayList Payload.isExpr (vtreeJoinConstraint c) =
      exprCountJoinConstraint c := by
  cases c with
  | On e =>
      simp [vtreeJoinConstraint, exprCountJoinConstraint, VNode.countPayList,
        countPay_vtreeExpr e]
  | Using names =>
      simp [vtreeJoinConstraint, exprCountJoinConstraint,
        countPay_vtreeObjectNameList names]
  | Natural =>
      simp [vtreeJoinConstraint, exprCountJoinConstraint, VNode.countPayList]
  | None =>
      simp [vtreeJoinConstraint, exprCountJoinConstraint, VNode.countPayList]

/-- Tree count for a table factor. -/
theorem countPay_vtreeTableFactor (tf : TableFactor) :
    VNode.countPay Payload.isExpr (vtreeTableFactor tf) =
      exprCountTableFactor tf := by
  cases tf with
  | Table name a args with_hints v wo part jp sam ih =>
      have hN := countPay_vtreeRelation name
      have hH := countPay_vtreeExprList with_hints
      cases args with
      | none =>
          simp [vtreeTableFactor, exprCountTableFactor, VNode.countPay,
            VNode.countPayList, Payload.isExpr, countPayList_append, hN, hH] <;> omega
      | some t =>
          cases t with
          | mk a0 s0 =>
              simp [vtreeTableFactor, exprCountTableFactor, VNode.countPay,
                VNode.countPayList, Payload.isExpr, countPayList_append, hN,
                hH, countPay_vtreeFunctionArgList a0] <;> omega
  | Derived lat subquery a =>
      simp [vtreeTableFactor, exprCountTableFactor, VNode.countPay,
        VNode.countPayList, Payload.isExpr, countPay_vtreeQuery subquery]
  | TableFunction e a =>
      simp [vtreeTableFactor, exprCountTableFactor, VNode.countPay,
        VNode.countPayList, Payload.isExpr, countPay_vtreeExpr e]
  | UNNEST a array_exprs wo woa word =>
      simp [vtreeTableFactor, exprCountTableFactor, VNode.countPay,
        Payload.isExpr, countPay_vtreeExprList array_exprs]
  | NestedJoin twj a =>
      simp [vtreeTableFactor, exprCountTableFactor, VNode.countPay,
        Payload.isExpr, countPay_vtreeTWJ twj]

/-- Tree count for a relation reference. -/
theorem countPay_vtreeRelation (name : List ObjectNamePart) :
    VNode.countPay Payload.isExpr (vtreeRelation name) =
      exprCountObjectName name := by
  simp [vtreeRelation, VNode.countPay, Payload.isExpr,
    countPay_vtreeObjectName name]

/-- Forest count for the parts of an object name. -/
theorem countPay_vtreeObjectName (name : List ObjectNamePart) :
    VNode.countPayList Payload.isExpr (vtreeObjectName name) =
      exprCountObjectName name := by
  cases name with
  | nil => simp [vtreeObjectName, exprCountObjectName, VNode.countPayList]
  | cons p ps =>
      have hrest := countPay_vtreeObjectName ps
      cases p with
      | Identifier i =>
          simp [vtreeObjectName, exprCountObjectName, countPayList_append,
            VNode.countPayList, hrest]
      | Function f =>
          cases f with
          | mk n args =>
              simp [vtreeObjectName, exprCountObjectName, countPayList_append,
                VNode.countPayList, hrest, countPay_vtreeFunctionArgList args]

/-- Forest count for a list of object names. -/
theorem countPay_vtreeObjectNameList (l : List (List ObjectNamePart)) :
    VNode.countPayList Payload.isExpr (vtreeObjectNameList l) =
      exprCountObjectNameList l := by
  cases l with
  | nil =>
      simp [vtreeObjectNameList, exprCountObjectNameList, VNode.countPayList]
  | cons n ns =>
      simp [vtreeObjectNameList, exprCountObjectNameList, countPayList_append,
        countPay_vtreeObjectName n, countPay_vtreeObjectNameList ns]

/-- Forest count for a function argument list. -/
theorem countPay_vtreeFunctionArgList (l : List FunctionArg) :
    VNode.countPayList Payload.isExpr (vtreeFunctionArgList l) =
      exprCountFunctionArgList l := by
  cases l with
  | nil =>
      simp [vtreeFunctionArgList, exprCountFunctionArgList, VNode.countPayList]
  | cons a as =>
      have hrest := countPay_vtreeFunctionArgList as
      cases a with
      | Named n arg op =>
          simp [vtreeFunctionArgList, exprCountFunctionArgList,
            countPayList_append, VNode.countPayList, hrest,
            countPay_vtreeFunctionArgExpr arg]
      | ExprNamed name arg op =>
          simp [vtreeFunctionArgList, exprCountFunctionArgList,
            countPayList_append, VNode.countPayList, hrest,
            countPay_vtreeExpr name, countPay_vtreeFunctionArgExpr arg] <;> omega
      | Unnamed arg =>
          simp [vtreeFunctionArgList, exprCountFunctionArgList,
            countPayList_append, VNode.countPayList, hrest,
            countPay_vtreeFunctionArgExpr arg]

/-- Forest count for a function argument expression. -/
theorem countPay_vtreeFunctionArgExpr (a : FunctionArgExpr) :
    VNode.countPayList Payload.isExpr (vtreeFunctionArgExpr a) =
      exprCountFunctionArgExpr a := by
  cases a with
  | Expr e =>
      simp [vtreeFunctionArgExpr, exprCountFunctionArgExpr, VNode.countPayList,
        countPay_vtreeExpr e]
  | QualifiedWildcard name =>
      simp [vtreeFunctionArgExpr, exprCountFunctionArgExpr,
        countPay_vtreeObjectName name]
  | Wildcard =>
      simp [vtreeFunctionArgExpr, exprCountFunctionArgExpr, VNode.countPayList]

/-- Forest count for a GROUP BY clause. -/
theorem countPay_vtreeGroupBy (g : GroupByExpr) :
    VNode.countPayList Payload.isExpr (vtreeGroupBy g) = exprCountGroupBy g := by
  cases g with
  | All modifiers =>
      simp [vtreeGroupBy, exprCountGroupBy, countPay_vtreeModifierList modifiers]
  | Expressions exprs modifiers =>
      simp [vtreeGroupBy, exprCountGroupBy, countPayList_append,
        countPay_vtreeExprList exprs, countPay_vtreeModifierList modifiers]

/-- Forest count for GROUP BY modifiers. -/
theorem countPay_vtreeModifierList (l : List GroupByWithModifier) :
    VNode.countPayList Payload.isExpr (vtreeModifierList l) =
      exprCountModifierList l := by
  cases l with
  | nil => simp [vtreeModifierList, exprCountModifierList, VNode.countPayList]
  | cons m ms =>
      have hrest := countPay_vtreeModifierList ms
      cases m with
      | Rollup =>
          simp [vtreeModifierList, exprCountModifierList, countPayList_append,
            VNode.countPayList, hrest]
      | Cube =>
          simp [vtreeModifierList, exprCountModifierList, countPayList_append,
            VNode.countPayList, hrest]
      | Totals =>
          simp [vtreeModifierList, exprCountModifierList, countPayList_append,
            VNode.countPayList, hrest]
      | GroupingSets e =>
          simp [vtreeModifierList, exprCountModifierList, countPayList_append,
            VNode.countPayList, hrest, countPay_vtreeExpr e]

/-- Forest count for a row list. -/
theorem countPay_vtreeRowList (l : List Row) :
    VNode.countPayList Payload.isExpr (vtreeRowList l) = exprCountRowList l := by
  cases l with
  | nil => simp [vtreeRowList, exprCountRowList, VNode.countPayList]
  | cons r rest =>
      cases r with
      | mk er rows =>
          simp [vtreeRowList, exprCountRowList, countPayList_append,
            countPay_vtreeExprListList rows, countPay_vtreeRowList rest]

/-- Forest count for a list of expression rows. -/
theorem countPay_vtreeExprListList (l : List (List Expr)) :
    VNode.countPayList Payload.isExpr (vtreeExprListList l) =
      exprCountExprListList l := by
  cases l with
  | nil => simp [vtreeExprListList, exprCountExprListList, VNode.countPayList]
  | cons r rs =>
      simp [vtreeExprListList, exprCountExprListList, countPayList_append,
        countPay_vtreeExprList r, countPay_vtreeExprListList rs]

/-- Tree count for an expression: each expression node is counted once. -/
theorem countPay_vtreeExpr (e : Expr) :
    VNode.countPay Payload.isExpr (vtreeExpr e) = exprCountExpr e := by
  cases e with
  | Identifier i =>
      simp [vtreeExpr, exprCountExpr, VNode.countPay, VNode.countPayList,
        Payload.isExpr]
  | CompoundIdentifier parts =>
      simp [vtreeExpr, exprCountExpr, VNode.countPay, VNode.countPayList,
        Payload.isExpr]
  | IsNull e =>
      simp [vtreeExpr, exprCountExpr, VNode.countPay, VNode.countPayList,
        Payload.isExpr, countPay_vtreeExpr e]
  | IsNotNull e =>
      simp [vtreeExpr, exprCountExpr, VNode.countPay, VNode.countPayList,
        Payload.isExpr, countPay_vtreeExpr e]
  | InList e list negated =>
      simp [vtreeExpr, exprCountExpr, VNode.countPay, VNode.countPayList,
        Payload.isExpr, countPay_vtreeExpr e, countPay_vtreeExprList list] <;> omega
  | Between e negated low high =>
      simp [vtreeExpr, exprCountExpr, VNode.countPay, VNode.countPayList,
        Payload.isExpr, countPay_vtreeExpr e, countPay_vtreeExpr low,
        countPay_vtreeExpr high] <;> omega
  | BinaryOp l op r =>
      simp [vtreeExpr, exprCountExpr, VNode.countPay, VNode.countPayList,
        Payload.isExpr, countPay_vtreeExpr l, countPay_vtreeExpr r] <;> omega
  | UnaryOp op e =>
      simp [vtreeExpr, exprCountExpr, VNode.countPay, VNode.countPayList,
        Payload.isExpr, countPay_vtreeExpr e]
  | Like negated any e pattern escape_char =>
      simp [vtreeExpr, exprCountExpr, VNode.countPay, VNode.countPayList,
        Payload.isExpr, countPay_vtreeExpr e, countPay_vtreeExpr pattern,
        countPay_vtreeValueOpt escape_char] <;> omega
  | Nested e =>
      simp [vtreeExpr, exprCountExpr, VNode.countPay, VNode.countPayList,
        Payload.isExpr, countPay_vtreeExpr e]
  | Value v =>
      simp [vtreeExpr, exprCountExpr, VNode.countPay, VNode.countPayList,
        Payload.isExpr]
  | Exists subquery negated =>
      simp [vtreeExpr, exprCountExpr, VNode.countPay, VNode.countPayList,
        Payload.isExpr, countPay_vtreeQuery subquery]
  | Subquery q =>
      simp [vtreeExpr, exprCountExpr, VNode.countPay, VNode.countPayList,
        Payload.isExpr, countPay_vtreeQuery q]
  | Tuple exprs =>
      simp [vtreeExpr, exprCountExpr, VNode.countPay, VNode.countPayList,
        Payload.isExpr, countPay_vtreeExprList exprs]

/-- Forest count for an expression list. -/
theorem countPay_vtreeExprList (l : List Expr) :
    VNode.countPayList Payload.isExpr (vtreeExprList l) =
      exprCountExprList l := by
  cases l with
  | nil => simp [vtreeExprList, exprCountExprList, VNode.countPayList]
  | cons e es =>
      simp [vtreeExprList, exprCountExprList, VNode.countPayList,
        countPay_vtreeExpr e, countPay_vtreeExprList es]

/-- Forest count for an optional expression. -/
theorem countPay_vtreeExprOpt (o : Option Expr) :
    VNode.countPayList Payload.isExpr (vtreeExprOpt o) =
      exprCountExprOpt o := by
  cases o with
  | none => simp [vtreeExprOpt, exprCountExprOpt, VNode.countPayList]
  | some e =>
      simp [vtreeExprOpt, exprCountExprOpt, VNode.countPayList,
        countPay_vtreeExpr e]

end

/-! ## Helper constructors of src/lib/index.ts -/

/-- Creates a new location object (src/lib/index.ts).  Both coordinates
default to 0, the unknown location. -/
def loc (line : Nat := 0) (column : Nat := 0) : Location :=
  { line := line, column := column }

/-- Creates a new span object (src/lib/index.ts).  Start and end default to
the unknown location. -/
def span (start : Location := loc) («end» : Location := loc) : Span :=
  { start := start, «end» := «end» }

/-! ## Observations on event streams -/

/-- The payloads of the fired pre-relation hooks, in order. -/
def preRelations (evs : List Event) : List ObjectName :=
  evs.filterMap fun ev => match ev with
    | .pre (.relation r) => some r
    | _ => none

/-- The payloads of the fired post-relation hooks, in order. -/
def postRelations (evs : List Event) : List ObjectName :=
  evs.filterMap fun ev => match ev with
    | .post (.relation r) => some r
    | _ => none

/-- The payloads of the fired pre-table-factor hooks, in order. -/
def preTableFactors (evs : List Event) : List TableFactor :=
  evs.filterMap fun ev => match ev with
    | .pre (.tableFactor tf) => some tf
    | _ => none

/-- The payloads of the fired post-table-factor hooks, in order. -/
def postTableFactors (evs : List Event) : List TableFactor :=
  evs.filterMap fun ev => match ev with
    | .post (.tableFactor tf) => some tf
    | _ => none

/-- The payloads of the fired pre-value hooks, in order. -/
def preValues (evs : List Event) : List Value :=
  evs.filterMap fun ev => match ev with
    | .pre (.value v) => some v
    | _ => none

/-- The textual name components of an object name. -/
def objectNameValues (n : ObjectName) : List String :=
  n.map fun p => match p with
    | .Identifier i => i.value
    | .Function (.mk name _) => name.value

/-- The name components of a table factor that is a plain table reference. -/
def tableFactorName : TableFactor → List String
  | .Table name _ _ _ _ _ _ _ _ _ => objectNameValues name
  | _ => []

/-- Whether a statement is of the Query variant. -/
def Statement.isQuery : Statement → Bool
  | .Query _ => true
  | .Insert _ => false

/-! ## The closed-union shape of GROUP BY

src/lib/statement.ts declares GroupByExpr as an object type with one
optional field per variant; the following projection maps the closed union
back onto that declaration shape, one populated key per value. -/

/-- The declaration shape of GroupByExpr in src/lib/statement.ts: an object
with an optional All key and an optional Expressions key. -/
structure GroupByExprObj where
  All : Option (List GroupByWithModifier)
  Expressions : Option (List Expr × List GroupByWithModifier)

/-- Serialize a GROUP BY union value onto the declaration shape: the arm of
the active variant is populated and the other is absent. -/
def GroupByExpr.toObj : GroupByExpr → GroupByExprObj
  | .All m => ⟨some m, none⟩
  | .Expressions e m => ⟨none, some (e, m)⟩

/-! ## The parse scenarios

The parser is the external engine (outside the TypeScript sources and
explicitly out of scope for the spec), so its input-output behaviour on the
scenario inputs of the spec and of src/tests/wasm.spec.js is modelled
directly: each scenario input maps to the AST the tests observe, and the
invalid input maps to the error message the tests expect. -/

/-- Shorthand for a span on line 1. -/
def sp1 (a b : Nat) : Span := ⟨⟨1, a⟩, ⟨1, b⟩⟩

/-- The parse result of the statement SELECT * FROM users; —
a single Query statement selecting the wildcard from the table users. -/
def astSelectUsers : Statement :=
  .Query (.mk none
    (.Select (.mk ⟨"SELECT", sp1 1 7⟩ false
      [.Wildcard .mk]
      [.mk (.Table [.Identifier ⟨"users", none, sp1 15 20⟩]
        none none [] none false [] none none []) []]
      none (.Expressions [] []) none none false .Standard))
    none)

/-- The parse result of the statement
SELECT * FROM users INNER JOIN orders ON users.id = orders.user_id; -/
def astUsersOrders : Statement :=
  .Query (.mk none
    (.Select (.mk ⟨"SELECT", sp1 1 7⟩ false
      [.Wildcard .mk]
      [.mk (.Table [.Identifier ⟨"users", none, sp1 15 20⟩]
          none none [] none false [] none none [])
        [.mk (.Table [.Identifier ⟨"orders", none, sp1 32 38⟩]
            none none [] none false [] none none [])
          false
          (.Inner (.On (.BinaryOp
            (.CompoundIdentifier [⟨"users", none, sp1 42 47⟩,
              ⟨"id", none, sp1 48 50⟩])
            .Eq
            (.CompoundIdentifier [⟨"orders", none, sp1 53 59⟩,
              ⟨"user_id", none, sp1 60 67⟩]))))]]
      none (.Expressions [] []) none none false .Standard))
    none)

/-- The parse result of the spec scenario SELECT * FROM a JOIN b JOIN c —
a bare JOIN parses with an empty constraint. -/
def astJoin3 : Statement :=
  .Query (.mk none
    (.Select (.mk ⟨"SELECT", sp1 1 7⟩ false
      [.Wildcard .mk]
      [.mk (.Table [.Identifier ⟨"a", none, sp1 15 16⟩]
          none none [] none false [] none none [])
        [.mk (.Table [.Identifier ⟨"b", none, sp1 22 23⟩]
            none none [] none false [] none none [])
          false (.Join .None),
         .mk (.Table [.Identifier ⟨"c", none, sp1 29 30⟩]
            none none [] none false [] none none [])
          false (.Join .None)]]
      none (.Expressions [] []) none none false .Standard))
    none)

/-- The parse result of the INSERT scenario: INSERT INTO users (id, name)
VALUES (1, single-quoted Alice), (2, single-quoted Bob); — an Insert
statement referencing the table users by name, with the two column names
and a source query whose body is the VALUES list with two rows of two
literals each, in source order; no SET assignments, partitions, ON clause
or RETURNING list, and the INTO keyword present. -/
def astInsert : Statement :=
  .Insert (.mk none false true
    (.TableName [.Identifier ⟨"users", none, sp1 13 18⟩])
    none
    [⟨"id", none, sp1 20 22⟩, ⟨"name", none, sp1 24 28⟩]
    false
    (some (.mk none
      (.Values (.mk [.mk false
        [[.Value ⟨.Number "1" false, sp1 38 39⟩,
          .Value ⟨.SingleQuotedString "Alice", sp1 41 48⟩],
         [.Value ⟨.Number "2" false, sp1 52 53⟩,
          .Value ⟨.SingleQuotedString "Bob", sp1 55 60⟩]]]))
      none))
    [] none [] false none none false none none none none)

/-- The parse result of the statement
SELECT * FROM users WHERE id = 1 AND name = single-quoted Alice; —
its WHERE clause holds seven expression nodes. -/
def astSelectWhere : Statement :=
  .Query (.mk none
    (.Select (.mk ⟨"SELECT", sp1 1 7⟩ false
      [.Wildcard .mk]
      [.mk (.Table [.Identifier ⟨"users", none, sp1 15 20⟩]
        none none [] none false [] none none []) []]
      (some (.BinaryOp
        (.BinaryOp (.Identifier ⟨"id", none, sp1 27 29⟩) .Eq
          (.Value ⟨.Number "1" false, sp1 32 33⟩))
        .And
        (.BinaryOp (.Identifier ⟨"name", none, sp1 38 42⟩) .Eq
          (.Value ⟨.SingleQuotedString "Alice", sp1 45 52⟩))))
      (.Expressions [] []) none none false .Standard))
    none)

/-- A single-quote character, built from its code point so that the SQL text
of the INSERT scenario can be spelled out. -/
def singleQuote : String := (Char.ofNat 39).toString

/-- The SQL text of the INSERT scenario of src/tests/wasm.spec.js. -/
def insertUsersSql : String :=
  "INSERT INTO users (id, name) VALUES (1, " ++ singleQuote ++ "Alice" ++
    singleQuote ++ "), (2, " ++ singleQuote ++ "Bob" ++ singleQuote ++ ");"

/-- The parser error message observed for SELEC * FROM users; in
src/tests/wasm.spec.js. -/
def selecErrorMessage : String :=
  "sql parser error: Expected: an SQL statement, found: SELEC at Line: 1, Column: 1"

/-- Modelled from the spec: parse_sql is implemented by the external engine
(src/lib/index.ts merely re-exports it), specified as
parse(dialect_name, sql) returning the statement list or a ParseError; its
behaviour is modelled on the scenario inputs of the spec section 8 and of
src/tests/wasm.spec.js, and is left as an error on unmodelled inputs. -/
def parse_sql (dialect : String) (sql : String) :
    Except String (List Statement) :=
  if dialect = "generic" then
    if sql = "SELECT * FROM users;" then .ok [astSelectUsers]
    else if sql =
        "SELECT * FROM users INNER JOIN orders ON users.id = orders.user_id;"
      then .ok [astUsersOrders]
    else if sql = "SELECT * FROM a JOIN b JOIN c" then .ok [astJoin3]
    else if sql = insertUsersSql then .ok [astInsert]
    else if sql = "SELEC * FROM users;" then .error selecErrorMessage
    else .error "unmodelled input"
  else .error "unmodelled input"

/-- Parses the given SQL string into an array of statements; the dialect
defaults to generic (parse in src/lib/index.ts). -/
def parse (sql : String) (dialect : String := "generic") :
    Except String (List Statement) :=
  parse_sql dialect sql

/-! ## Supporting lemmas for the claims -/

theorem countP_filter_keep {α : Type} (p q : α → Bool) (l : List α)
    (h : ∀ a, p a = true → q a = true) :
    (l.filter q).countP p = l.countP p := by
  induction l with
  | nil => simp
  | cons a l ih =>
      by_cases hq : q a = true
      · simp [List.filter_cons, hq, List.countP_cons, ih]
      · have hp : p a = false := by
          cases hpa : p a
          · rfl
          · exact absurd (h a hpa) hq
        simp [List.filter_cons, hq, List.countP_cons, ih, hp]

theorem emitList_append (cfg : SQLVisitorConfig) (a b : List VNode) :
    emitList cfg (a ++ b) = emitList cfg a ++ emitList cfg b := by
  induction a with
  | nil => simp [emitList]
  | cons v vs ih => simp [emitList, ih]

theorem preRelations_append (a b : List Event) :
    preRelations (a ++ b) = preRelations a ++ preRelations b := by
  simp [preRelations, List.filterMap_append]

theorem preRelations_joinList (joins : List Join) :
    preRelations (emitList fullConfig (vtreeJoinList joins)) =
      (joins.map fun j =>
        preRelations (emitList fullConfig (vtreeJoin j))).flatten := by
  induction joins with
  | nil => simp [vtreeJoinList, emitList, preRelations]
  | cons j js ih =>
      simp [vtreeJoinList, emitList_append, preRelations_append, ih]

theorem enabledB_empty (ev : Event) :
    Event.enabledB emptyConfig ev = false := by
  cases ev with
  | pre p => cases p <;> rfl
  | post p => cases p <;> rfl

/-- The WHERE scenario of src/tests/wasm.spec.js: the statement holds seven
expression nodes, matching the seven expected expr hook invocations. -/
theorem exprCount_astSelectWhere : exprCountStatement astSelectWhere = 7 := by
  simp [astSelectWhere, exprCountStatement, exprCountQuery,
    exprCountSetExpr, exprCountSelect, exprCountSelectItemList,
    exprCountTWJList, exprCountTWJ, exprCountJoinList,
    exprCountTableFactor, exprCountObjectName,
    exprCountExprList, exprCountExprOpt,
    exprCountGroupBy, exprCountModifierList, exprCountExpr]

/-! ## The claims -/

/-- C1: for every tree and every configuration whose expr hooks are
registered, the traversal fires the pre-expr hook exactly once per Expr node
of the tree, and likewise the post-expr hook: every reachable expression
node is visited exactly once. -/
theorem visit_expr_hook_count (s : Statement) (cfg : SQLVisitorConfig)
    (hpre : cfg.pre_visit_expr = true) (hpost : cfg.post_visit_expr = true) :
    (visit cfg s).countP (preOf Payload.isExpr) = exprCountStatement s ∧
    (visit cfg s).countP (postOf Payload.isExpr) = exprCountStatement s := by
  have hfil : visit cfg s = (visit fullConfig s).filter (Event.enabledB cfg) :=
    emit_filter cfg (vtreeStatement s)
  have hpreimp : ∀ ev, preOf Payload.isExpr ev = true →
      Event.enabledB cfg ev = true := by
    intro ev hev
    cases ev with
    | pre p =>
        cases p <;>
          simp_all [preOf, Payload.isExpr, Event.enabledB, preEnabled]
    | post p => simp [preOf] at hev
  have hpostimp : ∀ ev, postOf Payload.isExpr ev = true →
      Event.enabledB cfg ev = true := by
    intro ev hev
    cases ev with
    | pre p => simp [postOf] at hev
    | post p =>
        cases p <;>
          simp_all [postOf, Payload.isExpr, Event.enabledB, postEnabled]
  constructor
  · rw [hfil, countP_filter_keep _ _ _ hpreimp]
    have h1 : (visit fullConfig s).countP (preOf Payload.isExpr) =
        VNode.countPay Payload.isExpr (vtreeStatement s) :=
      emit_countP_pre Payload.isExpr (vtreeStatement s)
    rw [h1, countPay_vtreeStatement]
  · rw [hfil, countP_filter_keep _ _ _ hpostimp]
    have h1 : (visit fullConfig s).countP (postOf Payload.isExpr) =
        VNode.countPay Payload.isExpr (vtreeStatement s) :=
      emit_countP_post Payload.isExpr (vtreeStatement s)
    rw [h1, countPay_vtreeStatement]

/-- Witness for C1: the full configuration registers both expr hooks, and
the WHERE scenario statement is counted as claimed. -/
theorem visit_expr_hook_count_witness :
    fullConfig.pre_visit_expr = true ∧ fullConfig.post_visit_expr = true ∧
    ((visit fullConfig astSelectWhere).countP (preOf Payload.isExpr) =
        exprCountStatement astSelectWhere ∧
      (visit fullConfig astSelectWhere).countP (postOf Payload.isExpr) =
        exprCountStatement astSelectWhere) :=
  ⟨rfl, rfl, visit_expr_hook_count astSelectWhere fullConfig rfl rfl⟩

/-- C2: under any configuration that registers pre and post hooks in pairs,
the event stream of a traversal is well nested: every node's pre hook fires
before all hooks of its subtree and its post hook after all of them, so no
descendant's post hook fires after the node's own post hook. -/
theorem visit_pre_post_nesting (cfg : SQLVisitorConfig) (s : Statement)
    (h : cfg.paired) : Nested (visit cfg s) :=
  emit_nested h (vtreeStatement s)

/-- Witness for C2 at the full configuration and the SELECT scenario. -/
theorem visit_pre_post_nesting_witness :
    fullConfig.paired ∧ Nested (visit fullConfig astSelectUsers) :=
  ⟨⟨rfl, rfl, rfl, rfl, rfl, rfl⟩,
    visit_pre_post_nesting fullConfig astSelectUsers
      ⟨rfl, rfl, rfl, rfl, rfl, rfl⟩⟩

/-- C3: sibling order.  Generally, the relation hooks fired inside one FROM
entry are those of its leading table factor followed by those of its joins,
in join-list order; concretely, the spec scenario SELECT * FROM a JOIN b
JOIN c fires visit_relation for a, b, c in that order, and the test join
scenario fires the relation and table-factor hooks for users before
orders. -/
theorem visit_sibling_order :
    (∀ (relation : TableFactor) (joins : List Join),
      preRelations (emitList fullConfig (vtreeTWJ (.mk relation joins))) =
        preRelations (emit fullConfig (vtreeTableFactor relation)) ++
          (joins.map fun j =>
            preRelations (emitList fullConfig (vtreeJoin j))).flatten) ∧
    (preRelations (visit fullConfig astJoin3)).map objectNameValues =
      [["a"], ["b"], ["c"]] ∧
    (preRelations (visit fullConfig astUsersOrders)).map objectNameValues =
      [["users"], ["orders"]] ∧
    (preTableFactors (visit fullConfig astUsersOrders)).map tableFactorName =
      [["users"], ["orders"]] := by
  refine ⟨?_, ?_, ?_, ?_⟩
  · intro relation joins
    simp [vtreeTWJ, emitList, preRelations_append, preRelations_joinList]
  all_goals
    simp [visit, emit, emitList, hookOpen_full, hookClose_full,
      vtreeStatement, vtreeInsert, vtreeSQLFunction,
      vtreeFunctionArguments, vtreeFunctionArgumentClauseList,
      vtreeAssignmentList, vtreeOnInsertOpt,
      vtreeQuery, vtreeCteList, vtreeOrderByExprList,
      vtreeSetExpr, vtreeSelect, vtreeSelectItemList,
      vtreeTWJList, vtreeTWJ, vtreeJoinList,
      vtreeJoin, vtreeJoinConstraint, vtreeTableFactor,
      vtreeRelation, vtreeObjectName, vtreeObjectNameList,
      vtreeFunctionArgList, vtreeFunctionArgExpr,
      vtreeGroupBy, vtreeModifierList,
      vtreeRowList, vtreeExprListList, vtreeExpr,
      vtreeExprList, vtreeExprOpt, vtreeValueOpt,
      astJoin3, astUsersOrders, preRelations, preTableFactors,
      objectNameValues, tableFactorName]

/-- C4 counterexample: the traversal of the INSERT scenario does not fire
the value hooks in the order the spec lists (both numbers before both
strings); rows are traversed in source order, so the second value payload is
the single-quoted string Alice, not the number 2. -/
theorem visit_value_order_counterexample :
    preValues (visit fullConfig astInsert) ≠
      [.Number "1" false, .Number "2" false,
       .SingleQuotedString "Alice", .SingleQuotedString "Bob"] := by
  have h : preValues (visit fullConfig astInsert) =
      [.Number "1" false, .SingleQuotedString "Alice",
       .Number "2" false, .SingleQuotedString "Bob"] := by
    simp [visit, emit, emitList, hookOpen_full, hookClose_full,
      vtreeStatement, vtreeInsert, vtreeSQLFunction,
      vtreeFunctionArguments, vtreeFunctionArgumentClauseList,
      vtreeAssignmentList, vtreeOnInsertOpt,
      vtreeQuery, vtreeCteList, vtreeOrderByExprList,
      vtreeSetExpr, vtreeSelect, vtreeSelectItemList,
      vtreeTWJList, vtreeTWJ, vtreeJoinList,
      vtreeJoin, vtreeJoinConstraint, vtreeTableFactor,
      vtreeRelation, vtreeObjectName, vtreeObjectNameList,
      vtreeFunctionArgList, vtreeFunctionArgExpr,
      vtreeGroupBy, vtreeModifierList,
      vtreeRowList, vtreeExprListList, vtreeExpr,
      vtreeExprList, vtreeExprOpt, vtreeValueOpt,
      astInsert, preValues]
  rw [h]
  decide

/-- C4 as amended: parsing the INSERT scenario yields the Insert statement,
and visiting it fires the value hooks exactly four times, with payloads in
row-major source order: Number 1, SingleQuotedString Alice, Number 2,
SingleQuotedString Bob. -/
theorem visit_value_order_row_major :
    parse_sql "generic" insertUsersSql = .ok [astInsert] ∧
    preValues (visit fullConfig astInsert) =
      [.Number "1" false, .SingleQuotedString "Alice",
       .Number "2" false, .SingleQuotedString "Bob"] ∧
    (visit fullConfig astInsert).countP (preOf Payload.isValue) = 4 ∧
    (visit fullConfig astInsert).countP (postOf Payload.isValue) = 4 := by
  refine ⟨rfl, ?_, ?_, ?_⟩ <;>
    simp [visit, emit, emitList, hookOpen_full, hookClose_full,
      vtreeStatement, vtreeInsert, vtreeSQLFunction,
      vtreeFunctionArguments, vtreeFunctionArgumentClauseList,
      vtreeAssignmentList, vtreeOnInsertOpt,
      vtreeQuery, vtreeCteList, vtreeOrderByExprList,
      vtreeSetExpr, vtreeSelect, vtreeSelectItemList,
      vtreeTWJList, vtreeTWJ, vtreeJoinList,
      vtreeJoin, vtreeJoinConstraint, vtreeTableFactor,
      vtreeRelation, vtreeObjectName, vtreeObjectNameList,
      vtreeFunctionArgList, vtreeFunctionArgExpr,
      vtreeGroupBy, vtreeModifierList,
      vtreeRowList, vtreeExprListList, vtreeExpr,
      vtreeExprList, vtreeExprOpt, vtreeValueOpt,
      astInsert, preValues, preOf, postOf, Payload.isValue,
      List.countP_cons]

/-- C5: parsing SELECT * FROM users; yields exactly one statement, of the
Query variant, and visiting it fires the relation and table-factor hooks
exactly once each, both referencing the name users. -/
theorem parse_select_users_single_query_visit :
    parse_sql "generic" "SELECT * FROM users;" = .ok [astSelectUsers] ∧
    astSelectUsers.isQuery = true ∧
    (preRelations (visit fullConfig astSelectUsers)).map objectNameValues =
      [["users"]] ∧
    (postRelations (visit fullConfig astSelectUsers)).map objectNameValues =
      [["users"]] ∧
    (preTableFactors (visit fullConfig astSelectUsers)).map tableFactorName =
      [["users"]] ∧
    (postTableFactors (visit fullConfig astSelectUsers)).map tableFactorName =
      [["users"]] := by
  refine ⟨rfl, rfl, ?_, ?_, ?_, ?_⟩ <;>
    simp [visit, emit, emitList, hookOpen_full, hookClose_full,
      vtreeStatement, vtreeInsert, vtreeSQLFunction,
      vtreeFunctionArguments, vtreeFunctionArgumentClauseList,
      vtreeAssignmentList, vtreeOnInsertOpt,
      vtreeQuery, vtreeCteList, vtreeOrderByExprList,
      vtreeSetExpr, vtreeSelect, vtreeSelectItemList,
      vtreeTWJList, vtreeTWJ, vtreeJoinList,
      vtreeJoin, vtreeJoinConstraint, vtreeTableFactor,
      vtreeRelation, vtreeObjectName, vtreeObjectNameList,
      vtreeFunctionArgList, vtreeFunctionArgExpr,
      vtreeGroupBy, vtreeModifierList,
      vtreeRowList, vtreeExprListList, vtreeExpr,
      vtreeExprList, vtreeExprOpt, vtreeValueOpt,
      astSelectUsers, preRelations, postRelations, preTableFactors,
      postTableFactors, objectNameValues, tableFactorName]

/-- C6: parsing the malformed input SELEC * FROM users; yields no statement
list but an error whose message contains the phrase Expected: an SQL
statement and the 1-based position line 1, column 1. -/
theorem parse_invalid_sql_error :
    parse_sql "generic" "SELEC * FROM users;" = .error selecErrorMessage ∧
    ("Expected: an SQL statement".data <:+: selecErrorMessage.data) ∧
    ("Line: 1, Column: 1".data <:+: selecErrorMessage.data) :=
  ⟨rfl, by decide, by decide⟩

/-- C7: hook optionality.  A visitor with zero callbacks completes the walk
of any tree and fires nothing; and under an arbitrary configuration the walk
emits exactly the events of the fully-hooked walk whose hooks are
registered, so an absent entry is skipped while traversal still proceeds
into that node's children. -/
theorem visit_hook_optionality (s : Statement) (cfg : SQLVisitorConfig) :
    visit emptyConfig s = [] ∧
    visit cfg s = (visit fullConfig s).filter (Event.enabledB cfg) := by
  constructor
  · have h := emit_filter emptyConfig (vtreeStatement s)
    simp only [visit]
    rw [h]
    simp [List.filter_eq_nil_iff, enabledB_empty]
  · exact emit_filter cfg (vtreeStatement s)

/-- C9: the GROUP BY union is closed: serialized onto its declaration shape,
every GroupByExpr value populates exactly one of the All and Expressions
arms, never both and never neither. -/
theorem group_by_closed_union (g : GroupByExpr) :
    ((g.toObj).All.isSome && (g.toObj).Expressions.isSome) = false ∧
    ((g.toObj).All.isSome || (g.toObj).Expressions.isSome) = true := by
  cases g <;> exact ⟨rfl, rfl⟩

/-- C10: loc builds exactly the location from its arguments and span exactly
the span; with no arguments each returns the unknown location, 0 for both
coordinates. -/
theorem loc_span_construction :
    (∀ (line column : Nat), loc line column = ⟨line, column⟩) ∧
    (∀ (s e : Location), span s e = ⟨s, e⟩) ∧
    loc = (⟨0, 0⟩ : Location) ∧
    span = (⟨⟨0, 0⟩, ⟨0, 0⟩⟩ : Span) :=
  ⟨fun _ _ => rfl, fun _ _ => rfl, rfl, rfl⟩

end SqlParser
